import Mathlib

/-!
Verification of the quiz session runtime.

This file gives a shallow embedding, in Lean, of the single-active-session
runtime controller implemented in `app/services/runtime.py` of the
christmas-quiz repository, together with theorems settling the frozen
claims about it.

Modelling conventions:
* wall-clock instants and durations are integers (seconds); the code's
  `int((end - now).total_seconds())` truncation is exact in this model;
* Python floats are modelled as rationals;
* Python dicts keyed by strings are modelled as association lists
  (`alookup` / `aset` below), sets of player ids as duplicate-free lists;
* the database is carried inside the controller state: `db_sessions`,
  `db_players` and `db_answers` mirror the Session, SessionPlayer and
  SessionAnswer tables (snapshots are not needed by any claim);
* external effects are parameters: `Env.parseFloat` stands for Python
  `float(...)` applied to a string, `Env.evalText` for the AI grader
  verdict of `_evaluate_text_answer`;
* `Ctrl.timer` abstracts the single `timer_task`: `some d` is a pending
  scheduled task whose next sleep lasts `d` seconds, `none` no task.
  The body of a spawned task runs asynchronously and is not part of the
  synchronous step that schedules it;
* `Ctrl.fin_log` is a history (ghost) variable recording, for each
  invocation of `_finalize_question_scores` made through a caller, the
  value of `current_index` at that moment.  It changes no behaviour and
  exists so that the theorems can count finalize runs.
-/

namespace QuizRuntime

/-- Association list lookup for string-keyed maps (Python dict read). -/
def alookup {α : Type _} (k : String) : List (String × α) → Option α
  | [] => none
  | (k', v) :: rest => if k' = k then some v else alookup k rest

/-- Association list write (Python dict assignment): replaces the binding
of `k` if present, otherwise appends it. -/
def aset {α : Type _} (k : String) (v : α) : List (String × α) → List (String × α)
  | [] => [(k, v)]
  | (k', v') :: rest => if k' = k then (k, v) :: rest else (k', v') :: aset k v rest

/-- Association list removal (Python `dict.pop(k, None)`). -/
def aremove {α : Type _} (k : String) : List (String × α) → List (String × α)
  | [] => []
  | (k', v') :: rest => if k' = k then rest else (k', v') :: aremove k rest

theorem alookup_aset_self {α : Type _} (k : String) (v : α) (l : List (String × α)) :
    alookup k (aset k v l) = some v := by
  induction l with
  | nil => simp [alookup, aset]
  | cons hd tl ih =>
    by_cases h : hd.1 = k
    · simp [alookup, aset, h]
    · simp [alookup, aset, h, ih]

theorem alookup_aset_ne {α : Type _} {k k' : String} (v : α) (l : List (String × α))
    (h : k' ≠ k) : alookup k' (aset k v l) = alookup k' l := by
  have h' : ¬ (k = k') := fun hh => h hh.symm
  induction l with
  | nil => simp [alookup, aset, h']
  | cons hd tl ih =>
    by_cases hh : hd.1 = k
    · subst hh
      simp [alookup, aset, h']
    · by_cases hk : hd.1 = k'
      · simp [alookup, aset, hh, hk, h]
      · simp [alookup, aset, hh, hk, ih]

/-- Question row (`app/models/quiz.py`, class `Question`).  Fields not
consulted by the runtime (images, audio, speed_bonus) are omitted. -/
structure Question where
  id : String
  text : Option String
  answer_type : String
  options : List String
  correct_answer : Option String
  scoring_type : String
  duration_seconds : Int
  position : Nat
deriving DecidableEq, Repr

/-- Quiz row (`app/models/quiz.py`, class `Quiz`) with its ordered
relationship to questions. -/
structure Quiz where
  id : String
  name : String
  description : Option String
  gap_seconds : Int
  questions : List Question
deriving DecidableEq, Repr

/-- Timeline entry, mirroring the dicts built by `_build_timeline`. -/
inductive Entry where
  | quizIntro (quiz_index : Nat) (quiz : Quiz) (questions : List Question)
  | question (quiz_index : Nat) (question_index : Nat)
      (duration_seconds : Int) (gap_seconds : Int) (q : Question)
deriving DecidableEq, Repr

instance : Inhabited Entry := ⟨Entry.quizIntro 0 ⟨"", "", none, 0, []⟩ []⟩

/-- Discriminates `entry["kind"] == "question"`. -/
def Entry.isQuestion : Entry → Bool
  | .question _ _ _ _ _ => true
  | .quizIntro _ _ _ => false

/-- The `quiz_index` field of a timeline entry. -/
def Entry.quizIndex : Entry → Nat
  | .quizIntro i _ _ => i
  | .question i _ _ _ _ => i

/-- The `question_index` field of a timeline entry (None for intros). -/
def Entry.questionIndex : Entry → Option Nat
  | .quizIntro _ _ _ => none
  | .question _ i _ _ _ => i

/-- The `question` payload of a question entry. -/
def Entry.getQuestion : Entry → Option Question
  | .quizIntro _ _ _ => none
  | .question _ _ _ _ q => some q

/-- The `gap_seconds` field of a question entry (`entry.get("gap_seconds", 0)`). -/
def Entry.gapSeconds : Entry → Int
  | .quizIntro _ _ _ => 0
  | .question _ _ _ g _ => g

/-- Replaces `entry["duration_seconds"]`, as done by `set_manual` and
`resume` when restarting a timer with the remaining duration. -/
def Entry.withDuration : Entry → Int → Entry
  | .quizIntro i q qs, _ => .quizIntro i q qs
  | .question i j _ g q, d => .question i j d g q

/-- Stable insertion of a question into a position-sorted list; under
`foldr` the inserted question originally precedes every element of the
list, so it goes before any tie (strict comparison), matching the
stability of Python `sorted(questions, key=position)`. -/
def insertByPosition (q : Question) : List Question → List Question
  | [] => [q]
  | x :: xs =>
    if x.position < q.position then x :: insertByPosition q xs else q :: x :: xs

/-- Stable sort by `position` (Python `sorted` is stable). -/
def sortByPosition (qs : List Question) : List Question :=
  qs.foldr insertByPosition []

/-- Builds the timeline from the ordered SessionQuiz links of a session
(`_build_timeline`).  A `none` link models a SessionQuiz row whose quiz
relationship is missing (`if not link.quiz: continue`); note that the
enumeration index still advances over skipped links, as in the code. -/
def buildTimeline (links : List (Option Quiz)) : List Entry :=
  (links.enum.map fun p =>
    match p.2 with
    | none => []
    | some quiz =>
      let ordered := sortByPosition quiz.questions
      Entry.quizIntro p.1 quiz ordered ::
        ordered.enum.map fun qp =>
          Entry.question p.1 qp.1 qp.2.duration_seconds quiz.gap_seconds qp.2).flatten

/-- Number of `question` entries in a timeline. -/
def countQuestionEntries (tl : List Entry) : Nat :=
  (tl.filter Entry.isQuestion).length

/-- External semantics parameters: Python float parsing and the text
grader oracle. -/
structure Env where
  parseFloat : String → Option ℚ
  evalText : Option String → Option String → Bool

/-- Scoring branch of `submit_answer` (runtime.py lines 277-292):
returns `(is_correct, score_delta)` for an accepted submission. -/
def scoreAnswer (env : Env) (q : Question) (answer : Option String) : Bool × ℚ :=
  if q.scoring_type = "closest" then
    (false, 0)
  else if q.answer_type = "multiple_choice" then
    let c := match answer with
      | none => false
      | some a => decide (q.correct_answer = some a)
    (c, if c then 1 else 0)
  else if q.answer_type = "text" then
    let c := env.evalText answer q.correct_answer
    (c, if c then 1 else 0)
  else
    let c := answer.isSome
    (c, if c then 1 else 0)

/-- Clamp of an awarded closest score: `max(0.0, min(1.5, score))`. -/
def clampScore (x : ℚ) : ℚ := max 0 (min (3/2) x)

/-- Base closest score (runtime.py lines 597-599): `1.0` unless the
diff range is positive, in which case linear interpolation. -/
def closestBase (min_diff range_diff d : ℚ) : ℚ :=
  if 0 < range_diff then 1 - (d - min_diff) / range_diff else 1

/-- Awarded closest score: base, plus `0.5` exact bonus, clamped. -/
def closestAward (min_diff range_diff d : ℚ) : ℚ :=
  clampScore (closestBase min_diff range_diff d + if d = 0 then 1/2 else 0)

/-- Minimum of a list, as Python `min(iterable)` over a non-empty list. -/
def listMin : List ℚ → ℚ
  | [] => 0
  | x :: xs => xs.foldl min x

/-- Maximum of a list, as Python `max(iterable)` over a non-empty list. -/
def listMax : List ℚ → ℚ
  | [] => 0
  | x :: xs => xs.foldl max x

theorem foldl_min_le_init (l : List ℚ) (a : ℚ) : l.foldl min a ≤ a := by
  induction l generalizing a with
  | nil => simp
  | cons x xs ih => exact le_trans (ih (min a x)) (min_le_left a x)

theorem foldl_min_le_mem (l : List ℚ) (a x : ℚ) (hx : x ∈ l) : l.foldl min a ≤ x := by
  induction l generalizing a with
  | nil => cases hx
  | cons y ys ih =>
    rcases List.mem_cons.mp hx with h | h
    · subst h
      exact le_trans (foldl_min_le_init ys (min a x)) (min_le_right a x)
    · exact ih (min a y) h

theorem foldl_min_mem (l : List ℚ) (a : ℚ) : l.foldl min a ∈ a :: l := by
  induction l generalizing a with
  | nil => simp
  | cons x xs ih =>
    have h := ih (min a x)
    rcases List.mem_cons.mp h with h | h
    · rcases min_choice a x with hm | hm
      · exact List.mem_cons.mpr (Or.inl (h.trans hm))
      · exact List.mem_cons.mpr (Or.inr (List.mem_cons.mpr (Or.inl (h.trans hm))))
    · exact List.mem_cons.mpr (Or.inr (List.mem_cons.mpr (Or.inr h)))

theorem init_le_foldl_max (l : List ℚ) (a : ℚ) : a ≤ l.foldl max a := by
  induction l generalizing a with
  | nil => simp
  | cons x xs ih => exact le_trans (le_max_left a x) (ih (max a x))

theorem mem_le_foldl_max (l : List ℚ) (a x : ℚ) (hx : x ∈ l) : x ≤ l.foldl max a := by
  induction l generalizing a with
  | nil => cases hx
  | cons y ys ih =>
    rcases List.mem_cons.mp hx with h | h
    · subst h
      exact le_trans (le_max_right a x) (init_le_foldl_max ys (max a x))
    · exact ih (max a y) h

theorem listMin_le {l : List ℚ} {x : ℚ} (hx : x ∈ l) : listMin l ≤ x := by
  cases l with
  | nil => cases hx
  | cons y ys =>
    show List.foldl min y ys ≤ x
    rcases List.mem_cons.mp hx with h | h
    · subst h
      exact foldl_min_le_init ys x
    · exact foldl_min_le_mem ys y x h

theorem le_listMax {l : List ℚ} {x : ℚ} (hx : x ∈ l) : x ≤ listMax l := by
  cases l with
  | nil => cases hx
  | cons y ys =>
    show x ≤ List.foldl max y ys
    rcases List.mem_cons.mp hx with h | h
    · subst h
      exact init_le_foldl_max ys x
    · exact mem_le_foldl_max ys y x h

theorem listMin_mem {l : List ℚ} (hl : l ≠ []) : listMin l ∈ l := by
  cases l with
  | nil => exact absurd rfl hl
  | cons y ys => exact foldl_min_mem ys y

/-- Entry of the `closest_results` ranking list. -/
structure ClosestEntry where
  player_id : String
  answer : Option String
  distance : ℚ
  is_exact : Bool
deriving DecidableEq, Repr

/-- In-memory player record of `RuntimeController.players[sid][pid]`. -/
structure PlayerInfo where
  id : String
  name : String
  score : ℚ
  connected : Bool
deriving DecidableEq, Repr

/-- SessionAnswer table row (`app/models/session.py`). -/
structure SessionAnswerRow where
  session_id : String
  question_id : String
  player_id : String
  answer : Option String
  is_correct : Bool
deriving DecidableEq, Repr

/-- SessionPlayer table row (`app/models/session.py`), keyed by player id. -/
structure DBPlayer where
  id : String
  session_id : String
  name : String
  score : ℚ
  connected : Bool
deriving DecidableEq, Repr

/-- Session status enumeration. -/
inductive SessionStatus where
  | draft
  | live
  | finished
deriving DecidableEq, Repr

/-- Session table row (`app/models/session.py`), keyed by session id. -/
structure DBSession where
  id : String
  name : String
  status : SessionStatus
  manual_override : Bool
  active_quiz_index : Option Nat
  active_question_index : Option Nat
deriving DecidableEq, Repr

/-- HTTPException surfaced by the admin-facing operations. -/
structure HTTPError where
  status : Nat
  detail : String
deriving DecidableEq, Repr

/-- The RuntimeController state together with the database tables it
reads and writes.  `fin_log` is the finalize history variable described
in the file header. -/
structure Ctrl where
  active_session_id : Option String
  timeline : List Entry
  current_index : Int
  current_entry : Option Entry
  current_start : Option Int
  current_end : Option Int
  current_finalized : Bool
  timer : Option Int
  players : List (String × List (String × PlayerInfo))
  player_sockets : List (String × List Nat)
  answers : List (String × List String)
  scores_revealed : List (String × Bool)
  answer_results : List (String × List (String × Option Bool))
  answer_values : List (String × List (String × Option String))
  closest_results : List (String × List ClosestEntry)
  db_sessions : List (String × DBSession)
  db_players : List (String × DBPlayer)
  db_answers : List SessionAnswerRow
  fin_log : List Int
deriving DecidableEq, Repr

/-- Guard of `_finalize_question_scores`: proceed only for
`scoring_type == "closest"`, or the legacy pathway of a numeric question
with a falsy (empty) scoring_type. -/
def finalizeGuard (q : Question) : Bool :=
  decide (q.scoring_type = "closest") ||
    (decide (q.answer_type = "numeric") && decide (q.scoring_type = ""))

/-- All SessionAnswer rows of one question of one session, as fetched by
`_finalize_question_scores`. -/
def questionRows (st : Ctrl) (sid qid : String) : List SessionAnswerRow :=
  st.db_answers.filter fun r => decide (r.session_id = sid ∧ r.question_id = qid)

/-- All SessionAnswer rows of one (session, question, player) triple. -/
def rowsFor (st : Ctrl) (sid qid pid : String) : List SessionAnswerRow :=
  st.db_answers.filter fun r =>
    decide (r.session_id = sid ∧ r.question_id = qid ∧ r.player_id = pid)

/-- Rows whose `answer` parses as a float, paired with the absolute
distance to the target (`_finalize_question_scores` parsing loop). -/
def parsedDiffs (env : Env) (target : ℚ) (rows : List SessionAnswerRow) :
    List (SessionAnswerRow × ℚ) :=
  rows.filterMap fun r => (r.answer.bind env.parseFloat).map fun v => (r, |v - target|)

/-- The `updates` list of `_finalize_question_scores`:
`(player_id, awarded score, diff == 0)` per parsed answer. -/
def closestUpdates (min_diff range_diff : ℚ) (parsed : List (SessionAnswerRow × ℚ)) :
    List (String × ℚ × Bool) :=
  parsed.map fun rd => (rd.1.player_id, closestAward min_diff range_diff rd.2, decide (rd.2 = 0))

/-- Stable insertion for the ascending-by-distance sort of the ranking
list; under `foldr` the inserted entry originally precedes every element
of the list, so it goes before any tie (strict comparison), matching
the stability of Python `list.sort(key=distance)`. -/
def insertByDistance (e : ClosestEntry) : List ClosestEntry → List ClosestEntry
  | [] => [e]
  | x :: xs => if x.distance < e.distance then x :: insertByDistance e xs else e :: x :: xs

/-- Stable ascending sort of closest-ranking entries. -/
def sortByDistance (l : List ClosestEntry) : List ClosestEntry :=
  l.foldr insertByDistance []

/-- The ranking list (`closest_list`) built and sorted by finalize. -/
def closestList (parsed : List (SessionAnswerRow × ℚ)) : List ClosestEntry :=
  sortByDistance (parsed.map fun rd =>
    ⟨rd.1.player_id, rd.1.answer, rd.2, decide (rd.2 = 0)⟩)

/-- Mutable state threaded through the score-application loop of
`_finalize_question_scores`: the players dict bucket of the session, the
SessionPlayer rows, the SessionAnswer rows, and the answer_results
bucket of the session. -/
structure FinAcc where
  sessPlayers : List (String × PlayerInfo)
  db_players : List (String × DBPlayer)
  db_answers : List SessionAnswerRow
  sessResults : List (String × Option Bool)
deriving DecidableEq, Repr

/-- One iteration of the `for entry in closest_list` loop of
`_finalize_question_scores`. -/
def finApplyEntry (sid qid : String) (updates : List (String × ℚ × Bool))
    (acc : FinAcc) (e : ClosestEntry) : FinAcc :=
  let pid := e.player_id
  let delta := ((updates.find? fun u => decide (u.1 = pid)).map fun u => u.2.1).getD 0
  let is_exact := e.is_exact
  let sessPlayers :=
    match alookup pid acc.sessPlayers with
    | some p => aset pid { p with score := p.score + delta } acc.sessPlayers
    | none => acc.sessPlayers
  let dbp :=
    match alookup pid acc.db_players with
    | some p => aset pid { p with score := p.score + delta } acc.db_players
    | none => acc.db_players
  let dba := acc.db_answers.map fun r =>
    if r.session_id = sid ∧ r.question_id = qid ∧ r.player_id = pid then
      { r with is_correct := is_exact || decide (0 < delta) }
    else r
  let res := aset pid (some is_exact) acc.sessResults
  ⟨sessPlayers, dbp, dba, res⟩

/-- Embedding of `_finalize_question_scores` (runtime.py lines 555-644).
Skips silently unless the guard holds, the target parses and at least
one answer parses; otherwise awards the closest scores, patches the
SessionAnswer rows and publishes the ranking list. -/
def finalizeQuestionScores (env : Env) (st : Ctrl) (sid : String) (q : Question) : Ctrl :=
  if finalizeGuard q = false then st
  else
    match q.correct_answer.bind env.parseFloat with
    | none => st
    | some target =>
      let rows := questionRows st sid q.id
      let parsed := parsedDiffs env target rows
      if parsed.isEmpty then st
      else
        let diffs := parsed.map fun rd => rd.2
        let min_diff := listMin diffs
        let max_diff := listMax diffs
        let range_diff := max_diff - min_diff
        let updates := closestUpdates min_diff range_diff parsed
        let clist := closestList parsed
        let acc0 : FinAcc :=
          ⟨(alookup sid st.players).getD [], st.db_players, st.db_answers,
            (alookup sid st.answer_results).getD []⟩
        let acc := clist.foldl (finApplyEntry sid q.id updates) acc0
        { st with
          players :=
            match alookup sid st.players with
            | some _ => aset sid acc.sessPlayers st.players
            | none => st.players,
          db_players := acc.db_players,
          db_answers := acc.db_answers,
          answer_results := aset sid acc.sessResults st.answer_results,
          closest_results := aset sid clist st.closest_results }

/-- Calls finalize and records the invocation in the history log. -/
def runFinalize (env : Env) (st : Ctrl) (sid : String) (q : Question) : Ctrl :=
  finalizeQuestionScores env { st with fin_log := st.fin_log ++ [st.current_index] } sid q

/-- Updates the Session row of `sid`, if present. -/
def updSession (sid : String) (f : DBSession → DBSession)
    (l : List (String × DBSession)) : List (String × DBSession) :=
  match alookup sid l with
  | some s => aset sid (f s) l
  | none => l

/-- Embedding of `_start_timer`: a non-question entry cancels any task,
a question entry replaces it with a task sleeping the entry duration. -/
def startTimer (st : Ctrl) (entry : Entry) : Ctrl :=
  match entry with
  | .question _ _ dur _ _ => { st with timer := some dur }
  | .quizIntro _ _ _ => { st with timer := none }

/-- Clearing of the per-session answer tracking on entering a question
(`_advance` lines 111-116). -/
def resetAnswerTracking (st : Ctrl) (sid : String) (entry : Entry) : Ctrl :=
  if entry.isQuestion then
    { st with
      answers := aset sid [] st.answers,
      answer_results := aset sid [] st.answer_results,
      answer_values := aset sid [] st.answer_values,
      closest_results := aset sid [] st.closest_results }
  else st

/-- The finalize prefix of `_advance` (lines 79-84): finalize the
outgoing question when not yet finalized.  Note that, unlike reveal,
this step does not set `current_finalized`. -/
def advanceFinalizeStep (env : Env) (st : Ctrl) (sid : String) : Ctrl :=
  match st.current_entry with
  | some (.question _ _ _ _ q) =>
    if st.current_finalized then st else runFinalize env st sid q
  | _ => st

/-- Embedding of `_advance`.  The inner `none` arm of the index lookup
is unreachable for the states the claims quantify over, where the new
index is non-negative and below the timeline length. -/
def advance (env : Env) (now : Int) (st : Ctrl) (sid : String) : Ctrl :=
  let st1 := advanceFinalizeStep env st sid
  let idx := st1.current_index + 1
  let st2 := { st1 with current_index := idx }
  if (st2.timeline.length : Int) ≤ idx then
    { st2 with
      db_sessions := updSession sid (fun s =>
        { s with status := .finished, active_quiz_index := none,
                 active_question_index := none }) st2.db_sessions,
      active_session_id := none,
      timer := none }
  else
    match st2.timeline.get? idx.toNat with
    | none => st2
    | some entry =>
      let st3 := { st2 with
        db_sessions := updSession sid (fun s =>
          { s with active_quiz_index := some entry.quizIndex,
                   active_question_index := entry.questionIndex }) st2.db_sessions,
        current_entry := some entry,
        current_start := some now,
        current_end := match entry with
          | .question _ _ dur _ _ => some (now + dur)
          | .quizIntro _ _ _ => none,
        current_finalized := false }
      let st4 := resetAnswerTracking st3 sid entry
      startTimer st4 entry

/-- Embedding of `force_next`. -/
def forceNext (env : Env) (now : Int) (st : Ctrl) (sid : String) : Except HTTPError Ctrl :=
  if st.active_session_id = some sid then
    match alookup sid st.db_sessions with
    | none => .error ⟨404, "Session not found"⟩
    | some _ => .ok (advance env now st sid)
  else .error ⟨400, "Session is not active"⟩

/-- Embedding of `remaining_seconds`: zero when either stage bound is
unset, otherwise the non-negative seconds until `current_end`. -/
def remainingSeconds (st : Ctrl) (now : Int) : Int :=
  match st.current_end, st.current_start with
  | some e, some _ => max 0 (e - now)
  | _, _ => 0

/-- Outcome of a `set_manual` call.  `blocked st` records that the
coroutine never returns: holding the controller lock (acquired at line
145), it awaits `force_next`, which tries to re-acquire the same
non-reentrant asyncio.Lock (line 68), so the task deadlocks.  The
carried state is the controller state at the moment of blocking: the
manual_override write has been committed, and nothing changes
afterwards (the cursor and stage stay put, the mutex stays held). -/
inductive SetManualResult where
  | ok (st : Ctrl)
  | error (e : HTTPError)
  | blocked (st : Ctrl)
deriving DecidableEq, Repr

/-- Embedding of `set_manual`.  The `remaining <= 0` branch awaits
`force_next` while the caller already holds the controller lock, so it
deadlocks (`blocked`); the restart branch calls `_start_timer`, which
takes no lock, and returns normally. -/
def setManual (now : Int) (st : Ctrl) (sid : String) (manual : Bool) : SetManualResult :=
  match alookup sid st.db_sessions with
  | none => .error ⟨404, "Session not found"⟩
  | some sess =>
    let st1 := { st with
      db_sessions := aset sid { sess with manual_override := manual } st.db_sessions }
    if manual = false ∧ st1.active_session_id = some sid ∧ st1.current_entry.isSome then
      let r := remainingSeconds st1 now
      if r ≤ 0 then .blocked st1
      else
        match st1.current_entry with
        | some entry => .ok (startTimer st1 (entry.withDuration r))
        | none => .ok st1
    else .ok st1

/-- Embedding of `cancel`: when the session is active, drop the timer,
the timeline cursor and every per-session in-memory map. -/
def cancel (st : Ctrl) (sid : String) : Ctrl :=
  if st.active_session_id = some sid then
    { st with
      active_session_id := none,
      timeline := [],
      current_index := -1,
      current_entry := none,
      current_start := none,
      current_end := none,
      timer := none,
      answers := aremove sid st.answers,
      scores_revealed := aremove sid st.scores_revealed,
      answer_results := aremove sid st.answer_results,
      answer_values := aremove sid st.answer_values,
      closest_results := aremove sid st.closest_results,
      players := aremove sid st.players,
      player_sockets := aremove sid st.player_sockets }
  else st

/-- Embedding of `start`.  `links` is the ordered SessionQuiz query
result for `sid`.  On the 400 path the code has already overwritten
`self.timeline`; no claim observes the controller after a failed start,
so the model returns only the error. -/
def startSession (env : Env) (now : Int) (st : Ctrl) (links : List (Option Quiz))
    (sid : String) : Except HTTPError Ctrl :=
  match alookup sid st.db_sessions with
  | none => .error ⟨404, "Session not found"⟩
  | some sess =>
    let tl := buildTimeline links
    if tl.isEmpty then .error ⟨400, "Session has no questions to run"⟩
    else
      let st1 := { st with
        timeline := tl,
        active_session_id := some sid,
        current_index := -1,
        scores_revealed := aset sid false st.scores_revealed,
        db_sessions := aset sid { sess with status := .live } st.db_sessions }
      .ok (advance env now st1 sid)

/-- Embedding of `register_player`.  `freshId` stands for the freshly
minted 8-character uuid slice used when no (truthy) player id is given. -/
def registerPlayer (st : Ctrl) (sid name : String) (givenId : Option String)
    (freshId : String) : PlayerInfo × Ctrl :=
  let sessPlayers := (alookup sid st.players).getD []
  let given : Option String :=
    match givenId with
    | some s => if s = "" then none else some s
    | none => none
  let pp : String × PlayerInfo :=
    match given with
    | some p =>
      match alookup p sessPlayers with
      | some pl => (p, { pl with name := if name = "" then pl.name else name })
      | none => (p, ⟨p, if name = "" then "Player" else name, 0, true⟩)
    | none => (freshId, ⟨freshId, if name = "" then "Player" else name, 0, true⟩)
  let pid := pp.1
  let player := { pp.2 with connected := true }
  let st1 := { st with players := aset sid (aset pid player sessPlayers) st.players }
  let newRows :=
    match alookup pid st1.db_players with
    | some existing =>
      aset pid
        { existing with name := player.name, score := player.score, connected := true }
        st1.db_players
    | none =>
      aset pid ⟨pid, sid, player.name, player.score, true⟩ st1.db_players
  (player, { st1 with db_players := newRows })

/-- Whether (session, player) is registered in the in-memory cache, as
checked by `submit_answer` line 259. -/
def registered (st : Ctrl) (sid pid : String) : Bool :=
  match alookup sid st.players with
  | none => false
  | some b => (alookup pid b).isSome

/-- The answered-players set of a session for the current question. -/
def answeredSet (st : Ctrl) (sid : String) : List String :=
  (alookup sid st.answers).getD []

/-- Writes into a two-level dict, creating the session bucket when
missing (Python `outer.setdefault(sid, {})[pid] = v`). -/
def setIn2 {α : Type _} (outer : List (String × List (String × α))) (sid pid : String)
    (v : α) : List (String × List (String × α)) :=
  aset sid (aset pid v ((alookup sid outer).getD [])) outer

/-- Score bump of `submit_answer` lines 294-304: add the delta to the
in-memory score and persist that value to the SessionPlayer row. -/
def bumpScore (st : Ctrl) (sid pid : String) (delta : ℚ) : Ctrl :=
  let b := (alookup sid st.players).getD []
  match alookup pid b with
  | none => st
  | some p =>
    let p' := { p with score := p.score + delta }
    let st1 := { st with players := aset sid (aset pid p' b) st.players }
    match alookup pid st1.db_players with
    | some dbp => { st1 with db_players := aset pid { dbp with score := p'.score } st1.db_players }
    | none => st1

/-- The connected players of a session (`_maybe_fast_forward_question`
line 673). -/
def activePlayers (st : Ctrl) (sid : String) : List (String × PlayerInfo) :=
  ((alookup sid st.players).getD []).filter fun p => p.2.connected

/-- The trigger condition of `_maybe_fast_forward_question`: active
session, question stage, at least one connected player, and at least as
many answered entries as connected players. -/
def ffTriggers (st : Ctrl) (sid : String) : Bool :=
  match st.current_entry with
  | some (.question _ _ _ _ _) =>
    if st.active_session_id = some sid then
      let active := activePlayers st sid
      if active.isEmpty then false
      else decide (active.length ≤ (answeredSet st sid).length)
    else false
  | _ => false

/-- Embedding of `_maybe_fast_forward_question`: when the trigger fires,
the question timer is cancelled and replaced by the reveal-gap-advance
task; the body of that task runs asynchronously, so the synchronous
effect is the replacement of the scheduled task. -/
def maybeFastForward (st : Ctrl) (sid : String) : Ctrl :=
  if ffTriggers st sid then
    { st with timer := some ((st.current_entry.map Entry.gapSeconds).getD 0) }
  else st

/-- Embedding of `submit_answer` (runtime.py lines 255-335). -/
def submitAnswer (env : Env) (now : Int) (st : Ctrl) (sid pid : String)
    (answer : Option String) : Bool × Ctrl :=
  match st.current_entry with
  | some (.question _ _ _ _ q) =>
    if st.active_session_id ≠ some sid then (false, st)
    else if registered st sid pid = false then (false, st)
    else if (match st.current_end with | some e => decide (e < now) | none => false) then
      (false, st)
    else if pid ∈ answeredSet st sid then (false, st)
    else
      let sc := scoreAnswer env q answer
      let st1 := if sc.2 ≠ 0 then bumpScore st sid pid sc.2 else st
      let row : SessionAnswerRow :=
        ⟨sid, q.id, pid, answer, if q.scoring_type = "closest" then false else sc.1⟩
      let st2 := { st1 with db_answers := st1.db_answers ++ [row] }
      let st3 := { st2 with answers := aset sid (answeredSet st sid ++ [pid]) st2.answers }
      let res := if q.scoring_type = "closest" then none else some sc.1
      let st4 := { st3 with answer_results := setIn2 st3.answer_results sid pid res }
      let st5 := { st4 with answer_values := setIn2 st4.answer_values sid pid answer }
      (true, maybeFastForward st5 sid)
  | _ => (false, st)

/-- Embedding of `_reveal_current_question`: finalize once (setting the
flag), then move `current_end` to now. -/
def reveal (env : Env) (now : Int) (st : Ctrl) (sid : String) (entry : Entry) : Ctrl :=
  match entry with
  | .question _ _ _ _ q =>
    let st1 :=
      if st.current_finalized then st
      else { (runFinalize env st sid q) with current_finalized := true }
    { st1 with current_end := some now }
  | .quizIntro _ _ _ => st

/-- The question payload of the `state` view (runtime.py lines 375-394),
present only for a live session whose current stage is a question. -/
structure QuestionPayload where
  id : String
  quiz_index : Nat
  question_index : Option Nat
  text : Option String
  answer_type : String
  options : List String
  scoring_type : String
  duration_seconds : Int
  started_at : Option Int
  closes_at : Option Int
  remaining_seconds : Int
  revealed : Bool
  correct_answer : Option String
deriving DecidableEq, Repr

/-- Embedding of the question part of `state(session_id)`. -/
def questionPayload (now : Int) (st : Ctrl) (sid : String) : Option QuestionPayload :=
  match alookup sid st.db_sessions with
  | none => none
  | some sess =>
    match st.current_entry with
    | some (.question qi qj _ _ q) =>
      if sess.status = SessionStatus.live then
        let revealed := match st.current_end with
          | some e => decide (e ≤ now)
          | none => false
        some {
          id := q.id, quiz_index := qi, question_index := some qj,
          text := q.text, answer_type := q.answer_type, options := q.options,
          scoring_type := q.scoring_type, duration_seconds := q.duration_seconds,
          started_at := st.current_start, closes_at := st.current_end,
          remaining_seconds := remainingSeconds st now,
          revealed := revealed,
          correct_answer := if revealed then q.correct_answer else none }
      else none
    | _ => none

/-- Operations that can end a question stage: the timer or fast-forward
task performing reveal, and `_advance` (directly or via `force_next`). -/
inductive Op where
  | revealOp (now : Int)
  | advanceOp (now : Int)
deriving DecidableEq, Repr

/-- Applies one operation; reveal acts on the current entry, as both the
timer loop and the fast-forward task do. -/
def applyOp (env : Env) (sid : String) (st : Ctrl) : Op → Ctrl
  | .revealOp now =>
    match st.current_entry with
    | some e => reveal env now st sid e
    | none => st
  | .advanceOp now => advance env now st sid

/-- Runs a sequence of reveal and advance operations. -/
def runOps (env : Env) (sid : String) (st : Ctrl) (ops : List Op) : Ctrl :=
  ops.foldl (applyOp env sid) st

/-- Unwraps an operation result, defaulting on the error arm; used only
to build concrete execution traces whose steps all succeed. -/
def exceptD (d : Ctrl) : Except HTTPError Ctrl → Ctrl
  | .ok s => s
  | .error _ => d

/-- Whether an admin-facing operation succeeded. -/
def isOkE : Except HTTPError Ctrl → Bool
  | .ok _ => true
  | .error _ => false

/-! Concrete fixtures used by counterexamples and witnesses. -/

/-- Oracle instance with no parsable floats and a grader answering false. -/
def envNone : Env := ⟨fun _ => none, fun _ _ => false⟩

/-- Idle controller with empty state, as built by `RuntimeController.__init__`. -/
def idleCtrl : Ctrl :=
  { active_session_id := none, timeline := [], current_index := -1, current_entry := none,
    current_start := none, current_end := none, current_finalized := false, timer := none,
    players := [], player_sockets := [], answers := [], scores_revealed := [],
    answer_results := [], answer_values := [], closest_results := [],
    db_sessions := [], db_players := [], db_answers := [], fin_log := [] }

/-- A Session row in a given status. -/
def sessRow (sid : String) (status : SessionStatus) : DBSession :=
  ⟨sid, sid, status, false, none, none⟩

/-- A connected in-memory player. -/
def pConn (id : String) : PlayerInfo := ⟨id, id, 0, true⟩

/-- A disconnected in-memory player. -/
def pDisc (id : String) : PlayerInfo := ⟨id, id, 0, false⟩

/-- A multiple-choice question with exact scoring. -/
def qMC : Question := ⟨"q1", some "Q", "multiple_choice", ["A", "B"], some "A", "exact", 30, 0⟩

/-- A numeric question with exact scoring and correct answer "7". -/
def qNumericExact : Question := ⟨"qn", none, "numeric", [], some "7", "exact", 30, 0⟩

/-- The question stage entry for `qMC`. -/
def entryQ : Entry := .question 0 0 30 2 qMC

/-!
Claim C1.  The spec says numeric questions with `scoring_type = exact`
are scored like multiple choice, by string equality with
`question.correct_answer`.  In the code the scoring chain of
`submit_answer` tests `scoring_type == "closest"`, then
`answer_type == "multiple_choice"`, then `answer_type == "text"`, and
numeric answers fall into the final placeholder branch, which marks any
non-null answer correct.
-/

/-- C1 counterexample: a numeric question with `scoring_type = "exact"`
and correct answer "7" marks the submission "42" correct and awards 1.0,
although "42" differs from the stored correct answer, contradicting the
claimed string-equality scoring. -/
theorem numeric_exact_not_string_equality :
    qNumericExact.answer_type = "numeric" ∧ qNumericExact.scoring_type = "exact" ∧
    some "42" ≠ qNumericExact.correct_answer ∧
    scoreAnswer envNone qNumericExact (some "42") = (true, 1) := by
  refine ⟨rfl, rfl, by decide, by decide⟩

/-- C1 (amended): for a question with `answer_type = numeric` and
`scoring_type = exact`, `submit_answer` uses the fallback scoring
branch: the answer is correct, and 1.0 is awarded, iff the submitted
answer is non-null; string equality with `question.correct_answer` is
not consulted. -/
theorem numeric_exact_fallback_scoring (env : Env) (q : Question) (ans : Option String)
    (h1 : q.answer_type = "numeric") (h2 : q.scoring_type = "exact") :
    scoreAnswer env q ans = (ans.isSome, if ans.isSome then (1 : ℚ) else 0) := by
  unfold scoreAnswer
  rw [h1, h2]
  simp

/-- Witness for C1: the amended theorem applied to the concrete numeric
question and the submission "42". -/
theorem numeric_exact_fallback_scoring_witness :
    qNumericExact.answer_type = "numeric" ∧ qNumericExact.scoring_type = "exact" ∧
    scoreAnswer envNone qNumericExact (some "42") =
      ((some "42" : Option String).isSome,
        if (some "42" : Option String).isSome then (1 : ℚ) else 0) :=
  ⟨rfl, rfl, numeric_exact_fallback_scoring envNone qNumericExact (some "42") rfl rfl⟩

/-!
Claim C2.  The spec says fast-forward triggers iff at least one player
is connected and every connected player has answered.  The code compares
cardinalities: it triggers when the answered set (which may still count
players who have since disconnected) is at least as large as the set of
currently connected players, so a connected player who has not answered
can be masked by answered-then-disconnected players.
-/

theorem nodup_subset_length_le {l1 l2 : List String} (h1 : l1.Nodup) (hsub : l1 ⊆ l2) :
    l1.length ≤ l2.length := by
  have h3 : l1.toFinset ⊆ l2.toFinset := by
    intro x hx
    simp only [List.mem_toFinset] at hx ⊢
    exact hsub hx
  have h4 := Finset.card_le_card h3
  have h5 : l1.toFinset.card = l1.length := by
    rw [List.card_toFinset, h1.dedup]
  have h6 := List.toFinset_card_le l2
  omega

/-- Session state with players A, C disconnected after answering, D
connected and answered, and B connected but not yet answered. -/
def ffSt : Ctrl :=
  { idleCtrl with
    active_session_id := some "s"
    timeline := [entryQ]
    current_index := 0
    current_entry := some entryQ
    current_start := some 0
    current_end := some 30
    timer := some 30
    players := [("s", [("A", pDisc "A"), ("B", pConn "B"), ("C", pDisc "C"), ("D", pConn "D")])]
    answers := [("s", ["A", "C", "D"])]
    scores_revealed := [("s", false)]
    db_sessions := [("s", sessRow "s" .live)] }

/-- C2 counterexample: in `ffSt` the fast-forward trigger fires although
player B is connected and has not answered the current question, because
the answered set {A, C, D} (including two players who answered and then
disconnected) is larger than the connected set {B, D}. -/
theorem fast_forward_fires_despite_unanswered_connected_player :
    ffTriggers ffSt "s" = true ∧
    ¬ (∀ p ∈ activePlayers ffSt "s", p.1 ∈ answeredSet ffSt "s") := by
  refine ⟨by decide, by decide⟩

/-- C2 (amended): fast-forward triggers iff the session is active, the
stage is a question, at least one player is connected, and the answered
set has at least as many entries as there are connected players (a
cardinality test; answered players who have disconnected still count).
In particular, when every connected player has answered (and the player
dict has no duplicate keys) it does trigger, but the converse fails. -/
theorem fast_forward_trigger_characterization (st : Ctrl) (sid : String) :
    (ffTriggers st sid = true ↔
      ((st.current_entry.map Entry.isQuestion).getD false = true ∧
       st.active_session_id = some sid ∧
       activePlayers st sid ≠ [] ∧
       (activePlayers st sid).length ≤ (answeredSet st sid).length)) ∧
    ((((alookup sid st.players).getD []).map Prod.fst).Nodup →
      (st.current_entry.map Entry.isQuestion).getD false = true →
      st.active_session_id = some sid →
      activePlayers st sid ≠ [] →
      (∀ p ∈ activePlayers st sid, p.1 ∈ answeredSet st sid) →
      ffTriggers st sid = true) := by
  have hiff : ffTriggers st sid = true ↔
      ((st.current_entry.map Entry.isQuestion).getD false = true ∧
       st.active_session_id = some sid ∧
       activePlayers st sid ≠ [] ∧
       (activePlayers st sid).length ≤ (answeredSet st sid).length) := by
    unfold ffTriggers
    rcases hce : st.current_entry with _ | e
    · simp
    · cases e with
      | quizIntro i qz qs => simp [Entry.isQuestion]
      | question i j d g q =>
        simp only [Option.map_some', Option.getD_some, Entry.isQuestion, true_and]
        by_cases hact : st.active_session_id = some sid
        · simp only [hact, if_true, true_and]
          by_cases hemp : (activePlayers st sid).isEmpty = true
          · simp [hemp, List.isEmpty_iff.mp hemp]
          · have hne : activePlayers st sid ≠ [] := by
              intro hnil
              exact hemp (by simp [hnil])
            simp [hemp, hne, decide_eq_true_iff]
        · simp [hact]
  refine ⟨hiff, ?_⟩
  intro hnodup hq hact hne hall
  refine hiff.mpr ⟨hq, hact, hne, ?_⟩
  have hsub : (activePlayers st sid).map Prod.fst ⊆ answeredSet st sid := by
    intro x hx
    rcases List.mem_map.mp hx with ⟨p, hp, rfl⟩
    exact hall p hp
  have hsl : List.Sublist ((activePlayers st sid).map Prod.fst)
      (((alookup sid st.players).getD []).map Prod.fst) :=
    (List.filter_sublist _).map Prod.fst
  have hnd : ((activePlayers st sid).map Prod.fst).Nodup := hnodup.sublist hsl
  have := nodup_subset_length_le hnd hsub
  simpa using this

/-- Session state where the single connected player D has answered. -/
def ffSt2 : Ctrl := { ffSt with players := [("s", [("D", pConn "D")])], answers := [("s", ["D"])] }

/-- Witness for C2: the sufficiency direction of the characterization at
a concrete state where the only connected player has answered. -/
theorem fast_forward_trigger_characterization_witness :
    (((alookup "s" ffSt2.players).getD []).map Prod.fst).Nodup ∧ ffTriggers ffSt2 "s" = true :=
  ⟨by decide,
    (fast_forward_trigger_characterization ffSt2 "s").2 (by decide) (by decide) (by decide)
      (by decide) (by decide)⟩

/-!
Claim C3.  The spec says a session whose timeline has zero question
entries fails start with 400.  The code only checks that the timeline
list itself is empty; a quiz with zero questions still contributes its
quiz_intro entry, so such a session starts successfully.
-/

/-- A quiz with no questions. -/
def emptyQuiz : Quiz := ⟨"qz0", "Empty quiz", none, 3, []⟩

/-- Idle controller knowing one draft session "s". -/
def c3st : Ctrl := { idleCtrl with db_sessions := [("s", sessRow "s" .draft)] }

/-- Result of starting "s" over a playlist of one empty quiz. -/
def c3res : Ctrl := exceptD c3st (startSession envNone 0 c3st [some emptyQuiz] "s")

/-- C3 counterexample: a playlist of one quiz with zero questions builds
a timeline with zero question entries (only the quiz_intro), yet start
succeeds and marks the session live instead of failing with 400. -/
theorem start_accepts_intro_only_timeline :
    countQuestionEntries (buildTimeline [some emptyQuiz]) = 0 ∧
    isOkE (startSession envNone 0 c3st [some emptyQuiz] "s") = true ∧
    (alookup "s" c3res.db_sessions).map DBSession.status = some SessionStatus.live ∧
    c3res.active_session_id = some "s" := by
  refine ⟨by decide, by decide, by decide, by decide⟩

/-- C3 (amended): for an existing session, start fails with 400
"no questions to run" iff the built timeline has no entries at all;
a timeline consisting only of quiz_intro entries passes the check and
the session goes live. -/
theorem start_fails_iff_timeline_empty (env : Env) (now : Int) (st : Ctrl)
    (links : List (Option Quiz)) (sid : String) (sess : DBSession)
    (h : alookup sid st.db_sessions = some sess) :
    ((∃ e, startSession env now st links sid = .error e ∧ e.status = 400) ↔
      buildTimeline links = []) ∧
    (buildTimeline links = [] →
      startSession env now st links sid = .error ⟨400, "Session has no questions to run"⟩) := by
  have hkey : startSession env now st links sid =
      (if (buildTimeline links).isEmpty then
        (.error ⟨400, "Session has no questions to run"⟩ : Except HTTPError Ctrl)
      else
        .ok (advance env now { st with
          timeline := buildTimeline links,
          active_session_id := some sid,
          current_index := -1,
          scores_revealed := aset sid false st.scores_revealed,
          db_sessions := aset sid { sess with status := .live } st.db_sessions } sid)) := by
    unfold startSession
    rw [h]
  by_cases hb : (buildTimeline links).isEmpty = true
  · have hnil : buildTimeline links = [] := List.isEmpty_iff.mp hb
    rw [hkey, if_pos hb]
    exact ⟨⟨fun _ => hnil, fun _ => ⟨⟨400, "Session has no questions to run"⟩, rfl, rfl⟩⟩,
      fun _ => rfl⟩
  · have hnil : buildTimeline links ≠ [] := fun hh => hb (by simp [hh])
    rw [hkey, if_neg hb]
    refine ⟨⟨?_, fun hh => absurd hh hnil⟩, fun hh => absurd hh hnil⟩
    rintro ⟨e, he, _⟩
    cases he

/-- Witness for C3: the amended theorem applied to session "s" with an
empty playlist, whose timeline is empty, so start fails with 400. -/
theorem start_fails_iff_timeline_empty_witness :
    alookup "s" c3st.db_sessions = some (sessRow "s" .draft) ∧
    startSession envNone 0 c3st [] "s" =
      .error ⟨400, "Session has no questions to run"⟩ :=
  ⟨rfl, (start_fails_iff_timeline_empty envNone 0 c3st [] "s" (sessRow "s" .draft) rfl).2 rfl⟩

/-!
Claim C4.  The spec says clearing `manual_override` has no effect on a
quiz_intro stage, and the claim states that the cursor and stage are
left unchanged.  That is what happens, but not benignly: on the active
session the code only requires a current entry to exist,
`remaining_seconds` returns 0 for a quiz_intro (its `current_end` is
unset), and the code then awaits `force_next` while still holding the
controller lock acquired at the top of `set_manual`; `force_next`
re-acquires the same non-reentrant asyncio.Lock, so the call deadlocks.
The cursor never advances, the call never returns, and the controller
mutex stays held: a lock re-entry slip in the code, which the claim,
read as describing a normally returning no-op, does not anticipate.
-/

/-- The quiz_intro stage entry preceding `entryQ`. -/
def introEntry : Entry := .quizIntro 0 ⟨"qz1", "Quiz 1", none, 2, [qMC]⟩ [qMC]

/-- Session row of "s" live with manual override set. -/
def c4sess : DBSession := { sessRow "s" .live with manual_override := true }

/-- Live session "s" held on its quiz_intro stage with manual override
set. -/
def c4st : Ctrl :=
  { idleCtrl with
    active_session_id := some "s"
    timeline := [introEntry, entryQ]
    current_index := 0
    current_entry := some introEntry
    db_sessions := [("s", c4sess)] }

/-- The controller `c4st` after the manual_override flag of "s" is
persisted to false: the state at the moment `set_manual` blocks. -/
def c4stCleared : Ctrl :=
  { c4st with db_sessions := aset "s" { c4sess with manual_override := false } c4st.db_sessions }

/-- C4: evaluation at the failing input.  With the active session held
on its quiz_intro stage (so `current_end` is unset and the remaining
time is 0), `set_manual("s", false)` reaches the `force_next` branch
and blocks forever on the already-held controller lock.  At the moment
of blocking the manual flag has been persisted to false and the cursor
and stage are still at the intro; no further state change ever
happens. -/
theorem set_manual_on_intro_deadlocks :
    c4st.current_entry = some introEntry ∧ introEntry.isQuestion = false ∧
    c4st.current_end = none ∧
    setManual 5 c4st "s" false = .blocked c4stCleared ∧
    c4stCleared.current_index = 0 ∧ c4stCleared.current_entry = some introEntry ∧
    (alookup "s" c4stCleared.db_sessions).map DBSession.manual_override = some false := by
  refine ⟨rfl, rfl, rfl, by decide, by decide, rfl, by decide⟩

/-!
Claim C9.  The spec says that in the state view of a live question
stage `revealed` is true iff now is at or past `current_end`, and
`correct_answer` is non-null iff revealed.  The first part matches the
code; the second fails when the question row has a null
`correct_answer`: the payload then shows null even while revealed.
-/

/-- A text question whose `correct_answer` column is null. -/
def qNoAnswer : Question := ⟨"q2", some "Guess", "text", [], none, "exact", 30, 0⟩

/-- The question stage entry for `qNoAnswer`. -/
def entryQNA : Entry := .question 0 0 30 2 qNoAnswer

/-- Live session "s" on the `qNoAnswer` question stage, window 0..30. -/
def c9st : Ctrl :=
  { idleCtrl with
    active_session_id := some "s"
    timeline := [entryQNA]
    current_index := 0
    current_entry := some entryQNA
    current_start := some 0
    current_end := some 30
    db_sessions := [("s", sessRow "s" .live)] }

/-- The state question payload of `c9st` at time 40, past the deadline. -/
def c9pl : Option QuestionPayload := questionPayload 40 c9st "s"

/-- C9 counterexample: at time 40 the stage is revealed, yet the
`correct_answer` field of the state payload is null because the
question itself stores no correct answer, so non-null does not hold iff
revealed. -/
theorem revealed_with_null_correct_answer :
    (c9pl.map QuestionPayload.revealed) = some true ∧
    (c9pl.map QuestionPayload.correct_answer) = some none := by
  refine ⟨by decide, by decide⟩

/-- C9 (amended): in the state view of a live question stage, `revealed`
is true iff now is at or past `current_end`, and `correct_answer` equals
the question row value when revealed and null otherwise; hence it is
non-null iff the stage is revealed and the question stores a non-null
correct answer. -/
theorem state_question_payload_revealed (now : Int) (st : Ctrl) (sid : String)
    (sess : DBSession) (qi qj : Nat) (d g : Int) (q : Question) (e : Int)
    (hsess : alookup sid st.db_sessions = some sess)
    (hlive : sess.status = SessionStatus.live)
    (hentry : st.current_entry = some (.question qi qj d g q))
    (hend : st.current_end = some e) :
    ∃ pl, questionPayload now st sid = some pl ∧
      (pl.revealed = true ↔ e ≤ now) ∧
      pl.correct_answer = (if e ≤ now then q.correct_answer else none) ∧
      (pl.correct_answer ≠ none ↔ (pl.revealed = true ∧ q.correct_answer ≠ none)) := by
  unfold questionPayload
  rw [hsess, hentry]
  dsimp only
  rw [if_pos hlive, hend]
  dsimp only
  by_cases hle : e ≤ now
  · refine ⟨_, rfl, ?_, ?_, ?_⟩
    · simp [hle]
    · simp [hle]
    · simp [hle]
  · refine ⟨_, rfl, ?_, ?_, ?_⟩
    · simp [hle]
    · simp [hle]
    · simp [hle]

/-- Witness for C9: the amended theorem applied to `c9st` at time 40. -/
theorem state_question_payload_revealed_witness :
    alookup "s" c9st.db_sessions = some (sessRow "s" .live) ∧
    c9st.current_entry = some (.question 0 0 30 2 qNoAnswer) ∧
    c9st.current_end = some 30 ∧
    ∃ pl, questionPayload 40 c9st "s" = some pl ∧
      (pl.revealed = true ↔ (30 : Int) ≤ 40) ∧
      pl.correct_answer = (if (30 : Int) ≤ 40 then qNoAnswer.correct_answer else none) ∧
      (pl.correct_answer ≠ none ↔ (pl.revealed = true ∧ qNoAnswer.correct_answer ≠ none)) :=
  ⟨rfl, rfl, rfl,
    state_question_payload_revealed 40 c9st "s" (sessRow "s" .live) 0 0 30 2 qNoAnswer 30
      rfl rfl rfl rfl⟩

/-!
Claim C10.  `register_player` persists `player["score"]` into the
SessionPlayer row unconditionally.  When the player id is not in the
in-memory cache the freshly built record has score 0, so an existing
database row (for example one surviving a process restart without
resume) has its durable score overwritten with 0.
-/

/-- C10: after `register_player` with a (truthy) player id, the
persisted SessionPlayer row carries exactly the in-memory score of the
returned player; when that id was absent from the in-memory cache the
returned player has score 0, so the durable score is reset to 0. -/
theorem register_player_persists_memory_score (st : Ctrl) (sid name pid fresh : String)
    (hpid : pid ≠ "") :
    ((alookup pid (registerPlayer st sid name (some pid) fresh).2.db_players).map DBPlayer.score
      = some (registerPlayer st sid name (some pid) fresh).1.score) ∧
    (alookup pid ((alookup sid st.players).getD []) = none →
      (registerPlayer st sid name (some pid) fresh).1.score = 0 ∧
      (alookup pid (registerPlayer st sid name (some pid) fresh).2.db_players).map
        DBPlayer.score = some 0) := by
  cases hm : alookup pid ((alookup sid st.players).getD []) with
  | none =>
    cases hdb : alookup pid st.db_players with
    | none =>
      refine ⟨?_, fun _ => ⟨?_, ?_⟩⟩ <;>
        first
          | rfl
          | simp [registerPlayer, hpid, hm, hdb, alookup_aset_self]
    | some row =>
      refine ⟨?_, fun _ => ⟨?_, ?_⟩⟩ <;>
        first
          | rfl
          | simp [registerPlayer, hpid, hm, hdb, alookup_aset_self]
  | some pl =>
    cases hdb : alookup pid st.db_players with
    | none =>
      refine ⟨?_, fun h => Option.noConfusion h⟩
      simp [registerPlayer, hpid, hm, hdb, alookup_aset_self]
    | some row =>
      refine ⟨?_, fun h => Option.noConfusion h⟩
      simp [registerPlayer, hpid, hm, hdb, alookup_aset_self]

/-- Controller whose database holds a SessionPlayer row for "p9" with
score 5, while the in-memory player cache is empty. -/
def c10st : Ctrl := { idleCtrl with db_players := [("p9", ⟨"p9", "s", "Old", 5, false⟩)] }

/-- Witness for C10: registering "p9" against `c10st` resets the
persisted score from 5 to 0. -/
theorem register_player_persists_memory_score_witness :
    ("p9" : String) ≠ "" ∧
    (alookup "p9" c10st.db_players).map DBPlayer.score = some 5 ∧
    alookup "p9" ((alookup "s" c10st.players).getD []) = none ∧
    (registerPlayer c10st "s" "New" (some "p9") "f1").1.score = 0 ∧
    (alookup "p9" (registerPlayer c10st "s" "New" (some "p9") "f1").2.db_players).map
      DBPlayer.score = some 0 :=
  ⟨by decide, rfl, rfl,
    ((register_player_persists_memory_score c10st "s" "New" "p9" "f1" (by decide)).2 rfl).1,
    ((register_player_persists_memory_score c10st "s" "New" "p9" "f1" (by decide)).2 rfl).2⟩

/-!
Claim C6.  Formula and monotonicity of closest scoring, proved over the
components used verbatim by `finalizeQuestionScores`: `parsedDiffs`,
`listMin`, `listMax`, `closestBase`, `closestAward`, `closestUpdates`.
-/

theorem clampScore_mono {x y : ℚ} (h : x ≤ y) : clampScore x ≤ clampScore y :=
  max_le_max le_rfl (min_le_min le_rfl h)

theorem closestBase_antitone (minD rangeD : ℚ) {d1 d2 : ℚ} (h : d1 ≤ d2) :
    closestBase minD rangeD d2 ≤ closestBase minD rangeD d1 := by
  unfold closestBase
  split
  · next hr =>
    have hdiv : (d1 - minD) / rangeD ≤ (d2 - minD) / rangeD :=
      (div_le_div_iff_of_pos_right hr).mpr (sub_le_sub_right h minD)
    linarith
  · exact le_refl 1

theorem closestAward_antitone (minD rangeD : ℚ) {d1 d2 : ℚ} (h0 : 0 ≤ d1) (h : d1 ≤ d2) :
    closestAward minD rangeD d2 ≤ closestAward minD rangeD d1 := by
  unfold closestAward
  by_cases h2 : d2 = 0
  · have h1 : d1 = 0 := le_antisymm (h2 ▸ h) h0
    rw [h1, h2]
  · have hbase := closestBase_antitone minD rangeD h
    by_cases h1 : d1 = 0
    · rw [if_pos h1, if_neg h2]
      exact clampScore_mono (by linarith)
    · rw [if_neg h1, if_neg h2]
      exact clampScore_mono (by linarith)

theorem parsedDiffs_nonneg (env : Env) (target : ℚ) (rows : List SessionAnswerRow)
    {rd : SessionAnswerRow × ℚ} (h : rd ∈ parsedDiffs env target rows) : 0 ≤ rd.2 := by
  rcases List.mem_filterMap.mp h with ⟨r, _, hmap⟩
  rcases Option.map_eq_some'.mp hmap with ⟨v, _, hv⟩
  rw [← hv]
  exact abs_nonneg _

/-- C6: for a closest-scored question with a numeric target and a
non-empty list of parsable answers, with `minD`/`maxD` the extreme
distances: every parsed answer is awarded through `closestUpdates`
exactly the clamp to [0, 1.5] of base plus exact bonus, where base is 1
if the distance range is 0 and the linear interpolation otherwise and
the bonus is 0.5 iff the distance is 0; awarded scores are antitone in
the distance, the minimal distance is attained, the closest answer has
base score 1, and for a positive range the farthest has base score 0. -/
theorem closest_scoring_formula (env : Env) (target : ℚ) (rows : List SessionAnswerRow)
    (hne : parsedDiffs env target rows ≠ []) (minD maxD : ℚ)
    (hmin : minD = listMin ((parsedDiffs env target rows).map fun rd => rd.2))
    (hmax : maxD = listMax ((parsedDiffs env target rows).map fun rd => rd.2)) :
    (∀ rd ∈ parsedDiffs env target rows,
      (rd.1.player_id, closestAward minD (maxD - minD) rd.2, decide (rd.2 = 0)) ∈
        closestUpdates minD (maxD - minD) (parsedDiffs env target rows)) ∧
    (∀ rd ∈ parsedDiffs env target rows,
      closestAward minD (maxD - minD) rd.2 =
        clampScore ((if maxD - minD = 0 then 1 else 1 - (rd.2 - minD) / (maxD - minD)) +
          (if rd.2 = 0 then 1 / 2 else 0))) ∧
    (∀ rd1 ∈ parsedDiffs env target rows, ∀ rd2 ∈ parsedDiffs env target rows,
      rd1.2 ≤ rd2.2 →
        closestAward minD (maxD - minD) rd2.2 ≤ closestAward minD (maxD - minD) rd1.2) ∧
    (∃ rd ∈ parsedDiffs env target rows, rd.2 = minD) ∧
    (∀ rd ∈ parsedDiffs env target rows, rd.2 = minD →
      closestBase minD (maxD - minD) rd.2 = 1) ∧
    (0 < maxD - minD → ∀ rd ∈ parsedDiffs env target rows, rd.2 = maxD →
      closestBase minD (maxD - minD) rd.2 = 0) := by
  have hdne : (parsedDiffs env target rows).map (fun rd => rd.2) ≠ [] := by
    simpa using hne
  have hminmem := listMin_mem hdne
  have hminmax : minD ≤ maxD := by
    rw [hmin, hmax]
    exact le_listMax hminmem
  refine ⟨?_, ?_, ?_, ?_, ?_, ?_⟩
  · intro rd hrd
    exact List.mem_map.mpr ⟨rd, hrd, rfl⟩
  · intro rd _
    have hb : closestBase minD (maxD - minD) rd.2 =
        (if maxD - minD = 0 then (1 : ℚ) else 1 - (rd.2 - minD) / (maxD - minD)) := by
      unfold closestBase
      rcases eq_or_lt_of_le (by linarith : (0 : ℚ) ≤ maxD - minD) with hr | hr
      · rw [if_neg (by simp [← hr]), if_pos hr.symm]
      · rw [if_pos hr, if_neg (ne_of_gt hr)]
    unfold closestAward
    rw [hb]
  · intro rd1 h1 rd2 _ hle
    exact closestAward_antitone minD (maxD - minD) (parsedDiffs_nonneg env target rows h1) hle
  · rcases List.mem_map.mp hminmem with ⟨rd, hrd, hv⟩
    exact ⟨rd, hrd, by rw [hmin, ← hv]⟩
  · intro rd _ hmineq
    rw [hmineq]
    unfold closestBase
    split
    · rw [sub_self, zero_div, sub_zero]
    · rfl
  · intro hr rd _ hmaxeq
    rw [hmaxeq]
    unfold closestBase
    rw [if_pos hr, div_self (ne_of_gt hr), sub_self]

/-- Submitted answers of three players at 90, 110 and 100 for the
closest question with target 100. -/
def rowsC6 : List SessionAnswerRow :=
  [⟨"s", "qc", "p1", some "90", false⟩, ⟨"s", "qc", "p2", some "110", false⟩,
    ⟨"s", "qc", "p3", some "100", false⟩]

/-- Float parsing of the three numerals used by `rowsC6`. -/
def parse3 : String → Option ℚ := fun s =>
  if s = "90" then some 90 else if s = "110" then some 110
  else if s = "100" then some 100 else none

/-- Oracle instance parsing the `rowsC6` numerals. -/
def env3 : Env := ⟨parse3, fun _ _ => false⟩

theorem parsedDiffs_env3_eq : parsedDiffs env3 100 rowsC6 =
    [(⟨"s", "qc", "p1", some "90", false⟩, 10), (⟨"s", "qc", "p2", some "110", false⟩, 10),
      (⟨"s", "qc", "p3", some "100", false⟩, 0)] := by
  unfold parsedDiffs rowsC6 env3 parse3
  simp only [Option.bind, String.reduceEq, reduceIte, List.filterMap_cons, List.filterMap_nil,
    Option.map_some']
  norm_num

/-- Witness for C6: the formula theorem applied to target 100 and the
answers 90, 110, 100, at the farthest answer (distance 10). -/
theorem closest_scoring_formula_witness :
    parsedDiffs env3 100 rowsC6 ≠ [] ∧
    (0 : ℚ) = listMin ((parsedDiffs env3 100 rowsC6).map fun rd => rd.2) ∧
    (10 : ℚ) = listMax ((parsedDiffs env3 100 rowsC6).map fun rd => rd.2) ∧
    closestAward 0 (10 - 0) 10 =
      clampScore ((if (10 : ℚ) - 0 = 0 then 1 else 1 - (10 - 0) / (10 - 0)) +
        (if (10 : ℚ) = 0 then 1 / 2 else 0)) := by
  have h1 : parsedDiffs env3 100 rowsC6 ≠ [] := by rw [parsedDiffs_env3_eq]; simp
  have h2 : (0 : ℚ) = listMin ((parsedDiffs env3 100 rowsC6).map fun rd => rd.2) := by
    rw [parsedDiffs_env3_eq]
    norm_num [listMin]
  have h3 : (10 : ℚ) = listMax ((parsedDiffs env3 100 rowsC6).map fun rd => rd.2) := by
    rw [parsedDiffs_env3_eq]
    norm_num [listMax]
  have hmem : ((⟨"s", "qc", "p1", some "90", false⟩ : SessionAnswerRow), (10 : ℚ)) ∈
      parsedDiffs env3 100 rowsC6 := by
    rw [parsedDiffs_env3_eq]
    exact List.mem_cons_self _ _
  exact ⟨h1, h2, h3,
    (closest_scoring_formula env3 100 rowsC6 h1 0 10 h2 h3).2.1
      (⟨"s", "qc", "p1", some "90", false⟩, 10) hmem⟩

/-!
Claim C5.  Finalize idempotence.  The reveal path checks
`current_finalized` and sets it to true after finalizing; the `_advance`
path checks the flag but never sets it (lines 81-84 contain no
assignment), merely resetting it to false for the next entry.  The claim
as stated is therefore wrong about the mechanism; the at-most-once
property itself holds because `_advance` moves the cursor past the
question it finalized.  The `fin_log` history variable records the
cursor position of every finalize invocation.
-/

theorem finalizeQuestionScores_cursor (env : Env) (st : Ctrl) (sid : String) (q : Question) :
    (finalizeQuestionScores env st sid q).fin_log = st.fin_log ∧
    (finalizeQuestionScores env st sid q).current_index = st.current_index ∧
    (finalizeQuestionScores env st sid q).current_finalized = st.current_finalized ∧
    (finalizeQuestionScores env st sid q).current_entry = st.current_entry ∧
    (finalizeQuestionScores env st sid q).timeline = st.timeline := by
  unfold finalizeQuestionScores
  split
  · exact ⟨rfl, rfl, rfl, rfl, rfl⟩
  split
  · exact ⟨rfl, rfl, rfl, rfl, rfl⟩
  dsimp only
  split
  · exact ⟨rfl, rfl, rfl, rfl, rfl⟩
  · exact ⟨rfl, rfl, rfl, rfl, rfl⟩

theorem runFinalize_cursor (env : Env) (st : Ctrl) (sid : String) (q : Question) :
    (runFinalize env st sid q).fin_log = st.fin_log ++ [st.current_index] ∧
    (runFinalize env st sid q).current_index = st.current_index ∧
    (runFinalize env st sid q).current_finalized = st.current_finalized ∧
    (runFinalize env st sid q).current_entry = st.current_entry ∧
    (runFinalize env st sid q).timeline = st.timeline := by
  unfold runFinalize
  obtain ⟨h1, h2, h3, h4, h5⟩ :=
    finalizeQuestionScores_cursor env
      { st with fin_log := st.fin_log ++ [st.current_index] } sid q
  exact ⟨h1, h2, h3, h4, h5⟩

theorem advanceFinalizeStep_cursor (env : Env) (st : Ctrl) (sid : String) :
    (advanceFinalizeStep env st sid).current_index = st.current_index ∧
    (advanceFinalizeStep env st sid).current_finalized = st.current_finalized ∧
    (advanceFinalizeStep env st sid).timeline = st.timeline ∧
    ((advanceFinalizeStep env st sid).fin_log = st.fin_log ∨
      (st.current_finalized = false ∧
        (advanceFinalizeStep env st sid).fin_log = st.fin_log ++ [st.current_index])) := by
  unfold advanceFinalizeStep
  rcases hce : st.current_entry with _ | e
  · exact ⟨rfl, rfl, rfl, Or.inl rfl⟩
  · cases e with
    | quizIntro i qz qs => exact ⟨rfl, rfl, rfl, Or.inl rfl⟩
    | question i j d g q =>
      dsimp only
      by_cases hf : st.current_finalized = true
      · rw [if_pos hf]
        exact ⟨rfl, rfl, rfl, Or.inl rfl⟩
      · rw [if_neg hf]
        obtain ⟨h1, h2, h3, _, h5⟩ := runFinalize_cursor env st sid q
        exact ⟨h2, h3, h5, Or.inr ⟨Bool.not_eq_true _ ▸ hf, h1⟩⟩

theorem startTimer_cursor (st : Ctrl) (e : Entry) :
    (startTimer st e).fin_log = st.fin_log ∧
    (startTimer st e).current_index = st.current_index := by
  cases e <;> exact ⟨rfl, rfl⟩

theorem resetAnswerTracking_cursor (st : Ctrl) (sid : String) (e : Entry) :
    (resetAnswerTracking st sid e).fin_log = st.fin_log ∧
    (resetAnswerTracking st sid e).current_index = st.current_index := by
  unfold resetAnswerTracking
  split <;> exact ⟨rfl, rfl⟩

theorem advance_tail_fields (st3 : Ctrl) (sid : String) (entry : Entry) :
    (startTimer (resetAnswerTracking st3 sid entry) entry).fin_log = st3.fin_log ∧
    (startTimer (resetAnswerTracking st3 sid entry) entry).current_index = st3.current_index := by
  obtain ⟨h1, h2⟩ := resetAnswerTracking_cursor st3 sid entry
  obtain ⟨h3, h4⟩ := startTimer_cursor (resetAnswerTracking st3 sid entry) entry
  exact ⟨h3.trans h1, h4.trans h2⟩

theorem advance_log_index (env : Env) (now : Int) (st : Ctrl) (sid : String) :
    (advance env now st sid).current_index = st.current_index + 1 ∧
    ((advance env now st sid).fin_log = st.fin_log ∨
      (st.current_finalized = false ∧
        (advance env now st sid).fin_log = st.fin_log ++ [st.current_index])) := by
  obtain ⟨hidx, hflag, htl, hlog⟩ := advanceFinalizeStep_cursor env st sid
  unfold advance
  dsimp only
  split
  · refine ⟨?_, ?_⟩
    · dsimp only
      rw [hidx]
    · dsimp only
      rcases hlog with hl | ⟨hf, hl⟩
      · exact Or.inl hl
      · exact Or.inr ⟨hf, hl⟩
  · split
    · refine ⟨?_, ?_⟩
      · dsimp only
        rw [hidx]
      · dsimp only
        rcases hlog with hl | ⟨hf, hl⟩
        · exact Or.inl hl
        · exact Or.inr ⟨hf, hl⟩
    · next entry heq =>
      refine ⟨?_, ?_⟩
      · rw [(advance_tail_fields _ sid entry).2]
        dsimp only
        rw [hidx]
      · rw [(advance_tail_fields _ sid entry).1]
        dsimp only
        rcases hlog with hl | ⟨hf, hl⟩
        · exact Or.inl hl
        · exact Or.inr ⟨hf, hl⟩

/-- Invariant carried by reveal and advance: the finalize history is
duplicate-free, and only the current index with the flag set may appear
at the cursor. -/
def FinInv (st : Ctrl) : Prop :=
  st.fin_log.Nodup ∧
  ∀ i ∈ st.fin_log,
    i < st.current_index ∨ (i = st.current_index ∧ st.current_finalized = true)

theorem finInv_reveal (env : Env) (now : Int) (st : Ctrl) (sid : String) (e : Entry)
    (h : FinInv st) : FinInv (reveal env now st sid e) := by
  unfold reveal
  cases e with
  | quizIntro i qz qs => exact h
  | question i j d g q =>
    dsimp only
    by_cases hf : st.current_finalized = true
    · rw [if_pos hf]
      exact ⟨h.1, fun i hi => h.2 i hi⟩
    · rw [if_neg hf]
      obtain ⟨hlog, hidx, _, _, _⟩ := runFinalize_cursor env st sid q
      have hnotin : st.current_index ∉ st.fin_log := by
        intro hin
        rcases h.2 _ hin with hlt | ⟨_, hfl⟩
        · omega
        · exact hf hfl
      constructor
      · show ((runFinalize env st sid q).fin_log).Nodup
        rw [hlog]
        simp [List.nodup_append, h.1, hnotin]
      · intro i hi
        show i < (runFinalize env st sid q).current_index ∨
          (i = (runFinalize env st sid q).current_index ∧ true = true)
        rw [hidx]
        replace hi : i ∈ (runFinalize env st sid q).fin_log := hi
        rw [hlog] at hi
        rcases List.mem_append.mp hi with hin | hin
        · rcases h.2 i hin with hlt | ⟨heq, hfl⟩
          · exact Or.inl hlt
          · exact absurd hfl hf
        · simp only [List.mem_singleton] at hin
          exact Or.inr ⟨hin, rfl⟩

theorem finInv_advance (env : Env) (now : Int) (st : Ctrl) (sid : String)
    (h : FinInv st) : FinInv (advance env now st sid) := by
  obtain ⟨hidx, hlog⟩ := advance_log_index env now st sid
  constructor
  · rcases hlog with hl | ⟨hf, hl⟩
    · rw [hl]; exact h.1
    · rw [hl]
      have hnotin : st.current_index ∉ st.fin_log := by
        intro hin
        rcases h.2 _ hin with hlt | ⟨_, hfl⟩
        · omega
        · rw [hfl] at hf
          cases hf
      simp [List.nodup_append, h.1, hnotin]
  · intro i hi
    rw [hidx]
    rcases hlog with hl | ⟨hf, hl⟩
    · rw [hl] at hi
      rcases h.2 i hi with hlt | ⟨heq, _⟩
      · exact Or.inl (by omega)
      · exact Or.inl (by omega)
    · rw [hl] at hi
      rcases List.mem_append.mp hi with hin | hin
      · rcases h.2 i hin with hlt | ⟨heq, _⟩
        · exact Or.inl (by omega)
        · exact Or.inl (by omega)
      · simp only [List.mem_singleton] at hin
        exact Or.inl (by omega)

theorem finInv_applyOp (env : Env) (sid : String) (st : Ctrl) (op : Op)
    (h : FinInv st) : FinInv (applyOp env sid st op) := by
  cases op with
  | revealOp now =>
    unfold applyOp
    rcases hce : st.current_entry with _ | e
    · exact h
    · exact finInv_reveal env now st sid e h
  | advanceOp now => exact finInv_advance env now st sid h

theorem finInv_runOps (env : Env) (sid : String) (ops : List Op) (st : Ctrl)
    (h : FinInv st) : FinInv (runOps env sid st ops) := by
  induction ops generalizing st with
  | nil => exact h
  | cons op rest ih => exact ih (applyOp env sid st op) (finInv_applyOp env sid st op h)

/-- Live question state at cursor 0, not yet finalized. -/
def c5st : Ctrl :=
  { idleCtrl with
    active_session_id := some "s"
    timeline := [entryQ]
    current_index := 0
    current_entry := some entryQ
    current_start := some 0
    current_end := some 30
    db_sessions := [("s", sessRow "s" .live)] }

/-- C5 counterexample: from an unfinalized question stage, the finalize
prefix of `_advance` runs the finalize computation (the history records
the invocation at cursor 0) yet leaves `current_finalized` false, while
reveal sets it to true; so the claim that both paths set the flag to
true after finalizing is wrong about `_advance`. -/
theorem advance_finalize_step_leaves_flag_false :
    c5st.current_finalized = false ∧
    (advanceFinalizeStep envNone c5st "s").fin_log = [0] ∧
    (advanceFinalizeStep envNone c5st "s").current_finalized = false ∧
    (reveal envNone 30 c5st "s" entryQ).current_finalized = true := by
  refine ⟨rfl, by decide, by decide, by decide⟩

/-- C5 (amended): reveal checks `current_finalized` and sets it to true
after finalizing; `_advance` checks the flag before finalizing but does
not set it, instead resetting it to false for the next entry.  The
at-most-once property still holds: across any sequence of reveal and
`_advance` calls from a state satisfying the `FinInv` invariant (in
particular any freshly entered question stage), the finalize computation
runs at most once per timeline position, so scores for a question are
applied at most once. -/
theorem finalize_runs_at_most_once (env : Env) (sid : String) (st : Ctrl) (ops : List Op)
    (h : FinInv st) : ∀ i, ((runOps env sid st ops).fin_log.count i) ≤ 1 :=
  fun i => List.nodup_iff_count_le_one.mp (finInv_runOps env sid ops st h).1 i

/-- Witness for C5: the at-most-once bound applied to the concrete
question state `c5st` and the operation sequence reveal-advance. -/
theorem finalize_runs_at_most_once_witness :
    FinInv c5st ∧
    ((runOps envNone "s" c5st [Op.revealOp 30, Op.advanceOp 31]).fin_log.count 0) ≤ 1 :=
  ⟨⟨List.nodup_nil, fun i hi => absurd hi (List.not_mem_nil i)⟩,
    finalize_runs_at_most_once envNone "s" c5st [Op.revealOp 30, Op.advanceOp 31]
      ⟨List.nodup_nil, fun i hi => absurd hi (List.not_mem_nil i)⟩ 0⟩

/-!
Claim C7.  Acceptance conditions of `submit_answer`, its no-write
behaviour on rejection, and the per-question uniqueness of SessionAnswer
rows.  The guard tracks the in-memory answered set of the current stage;
it protects one occurrence of a question.  A playlist may list the same
quiz twice (`create_session` does not deduplicate quiz ids), the same
question then occurs at two timeline positions, and the answered set is
reset on re-entering it, so a second row for the same (session,
question, player) can be written: the "ever" part of the claim fails.
-/

/-- The id of the current question, when the current stage is one. -/
def currentQuestionId (st : Ctrl) : Option String :=
  (st.current_entry.bind Entry.getQuestion).map Question.id

/-- Per-question row uniqueness invariant: for the question `qid` of
session `sid`, each player has at most one row, and a player with a row
is in the answered set. -/
def AnswerInv (st : Ctrl) (sid qid : String) : Prop :=
  ∀ p : String, (rowsFor st sid qid p).length ≤ 1 ∧
    (rowsFor st sid qid p ≠ [] → p ∈ answeredSet st sid)

theorem bumpScore_frame (st : Ctrl) (sid pid : String) (dv : ℚ) :
    (bumpScore st sid pid dv).db_answers = st.db_answers ∧
    (bumpScore st sid pid dv).answers = st.answers := by
  unfold bumpScore
  dsimp only
  split
  · exact ⟨rfl, rfl⟩
  · split
    · exact ⟨rfl, rfl⟩
    · exact ⟨rfl, rfl⟩

theorem maybeFastForward_frame (st : Ctrl) (sid : String) :
    (maybeFastForward st sid).db_answers = st.db_answers ∧
    (maybeFastForward st sid).answers = st.answers := by
  unfold maybeFastForward
  split
  · exact ⟨rfl, rfl⟩
  · exact ⟨rfl, rfl⟩

theorem rowsFor_push (st2 st : Ctrl) (sid qid p : String) (row : SessionAnswerRow)
    (h : st2.db_answers = st.db_answers ++ [row]) :
    rowsFor st2 sid qid p =
      rowsFor st sid qid p ++
        (if row.session_id = sid ∧ row.question_id = qid ∧ row.player_id = p
          then [row] else []) := by
  unfold rowsFor
  rw [h, List.filter_append]
  congr 1
  by_cases hc : row.session_id = sid ∧ row.question_id = qid ∧ row.player_id = p
  · simp [List.filter_cons, hc]
  · simp [List.filter_cons, hc]

theorem submitAnswer_accept_fields (env : Env) (now : Int) (st : Ctrl) (sid pid : String)
    (ans : Option String) (i j : Nat) (d g : Int) (q : Question)
    (hentry : st.current_entry = some (.question i j d g q))
    (hact : st.active_session_id = some sid)
    (hreg : registered st sid pid = true)
    (htime : (match st.current_end with
      | some e => decide (e < now)
      | none => false) = false)
    (hans : pid ∉ answeredSet st sid) :
    (submitAnswer env now st sid pid ans).1 = true ∧
    (submitAnswer env now st sid pid ans).2.db_answers =
      st.db_answers ++ [⟨sid, q.id, pid, ans,
        if q.scoring_type = "closest" then false else (scoreAnswer env q ans).1⟩] ∧
    answeredSet (submitAnswer env now st sid pid ans).2 sid =
      answeredSet st sid ++ [pid] := by
  unfold submitAnswer
  rw [hentry]
  dsimp only
  rw [if_neg (by simp [hact])]
  rw [if_neg (by simp [hreg])]
  rw [if_neg (by simp [htime])]
  rw [if_neg hans]
  dsimp only
  refine ⟨rfl, ?_, ?_⟩
  · rw [(maybeFastForward_frame _ sid).1]
    dsimp only
    split
    · next hsc => rw [(bumpScore_frame st sid pid _).1]
    · rfl
  · unfold answeredSet
    rw [(maybeFastForward_frame _ sid).2]
    dsimp only
    rw [alookup_aset_self]
    rfl

theorem submitAnswer_reject_frame (env : Env) (now : Int) (st : Ctrl) (sid pid : String)
    (ans : Option String) :
    (submitAnswer env now st sid pid ans).1 = false →
    (submitAnswer env now st sid pid ans).2 = st := by
  unfold submitAnswer
  rcases hce : st.current_entry with _ | e
  · intro _; rfl
  · cases e with
    | quizIntro i qz qs => intro _; rfl
    | question i j d g q =>
      dsimp only
      split
      · intro _; rfl
      split
      · intro _; rfl
      split
      · intro _; rfl
      split
      · intro _; rfl
      · intro hfalse
        exact Bool.noConfusion hfalse

/-- C7 (amended): `submit_answer` accepts iff the session is active, the
current stage is a question, the clock has not passed `current_end`
(when set), the player is registered in the in-memory cache and the
player is not in the answered set of the current stage; on rejection the
state is unchanged (no row, no score change); and the per-stage
row-uniqueness invariant is preserved, so at most one row exists per
(session, question, player) for each occurrence of the question as the
current stage.  (A playlist listing the same quiz twice makes the same
question current twice, and a second row can then be written.) -/
theorem submit_answer_spec (env : Env) (now : Int) (st : Ctrl) (sid pid : String)
    (ans : Option String) :
    ((submitAnswer env now st sid pid ans).1 = true ↔
      (st.active_session_id = some sid ∧
       (st.current_entry.map Entry.isQuestion).getD false = true ∧
       (∀ e, st.current_end = some e → now ≤ e) ∧
       registered st sid pid = true ∧
       pid ∉ answeredSet st sid)) ∧
    ((submitAnswer env now st sid pid ans).1 = false →
      (submitAnswer env now st sid pid ans).2 = st) ∧
    (∀ qid, currentQuestionId st = some qid →
      AnswerInv st sid qid → AnswerInv (submitAnswer env now st sid pid ans).2 sid qid) := by
  have hiff : (submitAnswer env now st sid pid ans).1 = true ↔
      (st.active_session_id = some sid ∧
       (st.current_entry.map Entry.isQuestion).getD false = true ∧
       (∀ e, st.current_end = some e → now ≤ e) ∧
       registered st sid pid = true ∧
       pid ∉ answeredSet st sid) := by
    rcases hce : st.current_entry with _ | e
    · constructor
      · intro h
        unfold submitAnswer at h
        rw [hce] at h
        exact Bool.noConfusion h
      · rintro ⟨-, hq, -⟩
        simp at hq
    · cases e with
      | quizIntro i qz qs =>
        constructor
        · intro h
          unfold submitAnswer at h
          rw [hce] at h
          exact Bool.noConfusion h
        · rintro ⟨-, hq, -⟩
          simp [Entry.isQuestion] at hq
      | question i j d g q =>
        constructor
        · intro h
          unfold submitAnswer at h
          rw [hce] at h
          dsimp only at h
          by_cases hact : st.active_session_id = some sid
          · rw [if_neg (by simp [hact])] at h
            by_cases hreg : registered st sid pid = true
            · rw [if_neg (by simp [hreg])] at h
              by_cases htime : (match st.current_end with
                  | some e => decide (e < now)
                  | none => false) = true
              · rw [if_pos (by simp [htime])] at h
                exact Bool.noConfusion h
              · rw [if_neg (by simp [htime])] at h
                by_cases hans : pid ∈ answeredSet st sid
                · rw [if_pos hans] at h
                  exact Bool.noConfusion h
                · refine ⟨hact, by simp [Entry.isQuestion], ?_, hreg, hans⟩
                  intro e he
                  rw [he] at htime
                  simpa using htime
            · rw [if_pos (by simp [Bool.not_eq_true] at hreg; exact hreg)] at h
              exact Bool.noConfusion h
          · rw [if_pos (by simp [hact])] at h
            exact Bool.noConfusion h
        · rintro ⟨hact, -, htime, hreg, hans⟩
          have htime' : (match st.current_end with
              | some e => decide (e < now)
              | none => false) = false := by
            rcases hend : st.current_end with _ | e
            · rfl
            · simp only []
              have := htime e hend
              simp [decide_eq_false_iff_not]
              omega
          exact (submitAnswer_accept_fields env now st sid pid ans i j d g q hce hact hreg
            htime' hans).1
  refine ⟨hiff, submitAnswer_reject_frame env now st sid pid ans, ?_⟩
  intro qid hqid hinv
  by_cases hres : (submitAnswer env now st sid pid ans).1 = true
  · obtain ⟨hact, hq, htime, hreg, hans⟩ := hiff.mp hres
    rcases hce : st.current_entry with _ | e
    · rw [hce] at hq
      simp at hq
    · cases e with
      | quizIntro ii qz qs =>
        rw [hce] at hq
        simp [Entry.isQuestion] at hq
      | question i j d g q =>
        have hqid' : qid = q.id := by
          unfold currentQuestionId at hqid
          rw [hce] at hqid
          simp [Entry.getQuestion] at hqid
          exact hqid.symm
        have htime' : (match st.current_end with
            | some e => decide (e < now)
            | none => false) = false := by
          rcases hend : st.current_end with _ | e
          · rfl
          · simp only []
            have := htime e hend
            simp [decide_eq_false_iff_not]
            omega
        obtain ⟨-, hdb, hansset⟩ := submitAnswer_accept_fields env now st sid pid ans
          i j d g q hce hact hreg htime' hans
        intro p
        have hrows := rowsFor_push (submitAnswer env now st sid pid ans).2 st sid qid p
          ⟨sid, q.id, pid, ans,
            if q.scoring_type = "closest" then false else (scoreAnswer env q ans).1⟩ hdb
        by_cases hp : p = pid
        · subst hp
          have hempty : rowsFor st sid qid p = [] := by
            by_contra hne
            exact hans ((hinv p).2 hne)
          rw [hrows, hempty]
          rw [if_pos ⟨rfl, hqid'.symm, rfl⟩]
          constructor
          · simp
          · intro _
            rw [hansset]
            exact List.mem_append_right _ (List.mem_singleton_self p)
        · rw [hrows]
          rw [if_neg (fun hcon => hp hcon.2.2.symm)]
          rw [List.append_nil]
          refine ⟨(hinv p).1, fun hne => ?_⟩
          rw [hansset]
          exact List.mem_append_left _ ((hinv p).2 hne)
  · have hfr := submitAnswer_reject_frame env now st sid pid ans
      (Bool.not_eq_true _ ▸ hres)
    rw [hfr]
    exact hinv

/-- A quiz holding the single question `qMC`, gap 0. -/
def quizDup : Quiz := ⟨"qzd", "Quiz D", none, 0, [qMC]⟩

/-- Playlist listing `quizDup` twice, as `create_session` permits. -/
def c7links : List (Option Quiz) := [some quizDup, some quizDup]

/-- Draft session "s" with the registered connected player p1. -/
def c7st0 : Ctrl :=
  { idleCtrl with
    db_sessions := [("s", sessRow "s" .draft)]
    players := [("s", [("p1", pConn "p1")])]
    db_players := [("p1", ⟨"p1", "s", "p1", 0, true⟩)] }

/-- After start: intro stage of the first occurrence. -/
def c7s1 : Ctrl := exceptD c7st0 (startSession envNone 0 c7st0 c7links "s")

/-- After force_next: question stage, first occurrence. -/
def c7s2 : Ctrl := exceptD c7s1 (forceNext envNone 0 c7s1 "s")

/-- First submission of p1. -/
def c7r3 : Bool × Ctrl := submitAnswer envNone 0 c7s2 "s" "p1" (some "A")

/-- After force_next: intro stage of the second occurrence. -/
def c7s4 : Ctrl := exceptD c7r3.2 (forceNext envNone 0 c7r3.2 "s")

/-- After force_next: question stage, second occurrence. -/
def c7s5 : Ctrl := exceptD c7s4 (forceNext envNone 0 c7s4 "s")

/-- Second submission of p1 to the same question. -/
def c7r6 : Bool × Ctrl := submitAnswer envNone 0 c7s5 "s" "p1" (some "A")

/-- C7 counterexample: with `qMC`'s quiz listed twice in the playlist,
the same question is current at two timeline positions; p1's submission
is accepted in both passes, leaving two SessionAnswer rows for the same
(session, question, player), so the at-most-one-row-ever part of the
claim fails on the code. -/
theorem submit_answer_duplicate_rows :
    countQuestionEntries (buildTimeline c7links) = 2 ∧
    c7r3.1 = true ∧ c7r6.1 = true ∧
    (rowsFor c7r6.2 "s" "q1" "p1").length = 2 := by
  refine ⟨by decide, by decide, by decide, by decide⟩

/-- Witness for C7: the acceptance characterization applied to the
concrete first submission of the trace, all conditions holding. -/
theorem submit_answer_spec_witness :
    (submitAnswer envNone 0 c7s2 "s" "p1" (some "A")).1 = true :=
  ((submit_answer_spec envNone 0 c7s2 "s" "p1" (some "A")).1).mpr
    ⟨by decide, by decide,
      fun e he => by
        rw [show c7s2.current_end = some 30 by decide] at he
        injection he with h30
        omega,
      by decide, by decide⟩

/-!
Claim C8.  The spec claims that starting session B while session A is
live first aborts A via `cancel`.  The code's `start` never calls
`cancel`: it overwrites the active-session binding, timeline and cursor,
and leaves every per-session in-memory map of A in place (the timer task
is only replaced when the first stage of B starts).  `cancel` is invoked
only by the admin reset and delete endpoints.
-/

theorem finalizeQuestionScores_frame (env : Env) (st : Ctrl) (sid : String) (q : Question)
    (k : String) (hk : k ≠ sid) :
    alookup k (finalizeQuestionScores env st sid q).players = alookup k st.players ∧
    (finalizeQuestionScores env st sid q).answers = st.answers ∧
    alookup k (finalizeQuestionScores env st sid q).answer_results =
      alookup k st.answer_results ∧
    (finalizeQuestionScores env st sid q).answer_values = st.answer_values ∧
    alookup k (finalizeQuestionScores env st sid q).closest_results =
      alookup k st.closest_results ∧
    (finalizeQuestionScores env st sid q).scores_revealed = st.scores_revealed ∧
    (finalizeQuestionScores env st sid q).player_sockets = st.player_sockets := by
  unfold finalizeQuestionScores
  split
  · exact ⟨rfl, rfl, rfl, rfl, rfl, rfl, rfl⟩
  split
  · exact ⟨rfl, rfl, rfl, rfl, rfl, rfl, rfl⟩
  dsimp only
  split
  · exact ⟨rfl, rfl, rfl, rfl, rfl, rfl, rfl⟩
  · refine ⟨?_, rfl, alookup_aset_ne _ _ hk, rfl, alookup_aset_ne _ _ hk, rfl, rfl⟩
    dsimp only
    split
    · exact alookup_aset_ne _ _ hk
    · rfl

theorem runFinalize_frame (env : Env) (st : Ctrl) (sid : String) (q : Question)
    (k : String) (hk : k ≠ sid) :
    alookup k (runFinalize env st sid q).players = alookup k st.players ∧
    (runFinalize env st sid q).answers = st.answers ∧
    alookup k (runFinalize env st sid q).answer_results = alookup k st.answer_results ∧
    (runFinalize env st sid q).answer_values = st.answer_values ∧
    alookup k (runFinalize env st sid q).closest_results = alookup k st.closest_results ∧
    (runFinalize env st sid q).scores_revealed = st.scores_revealed ∧
    (runFinalize env st sid q).player_sockets = st.player_sockets := by
  unfold runFinalize
  exact finalizeQuestionScores_frame env
    { st with fin_log := st.fin_log ++ [st.current_index] } sid q k hk

theorem advanceFinalizeStep_frame (env : Env) (st : Ctrl) (sid : String)
    (k : String) (hk : k ≠ sid) :
    alookup k (advanceFinalizeStep env st sid).players = alookup k st.players ∧
    (advanceFinalizeStep env st sid).answers = st.answers ∧
    alookup k (advanceFinalizeStep env st sid).answer_results = alookup k st.answer_results ∧
    (advanceFinalizeStep env st sid).answer_values = st.answer_values ∧
    alookup k (advanceFinalizeStep env st sid).closest_results =
      alookup k st.closest_results ∧
    (advanceFinalizeStep env st sid).scores_revealed = st.scores_revealed ∧
    (advanceFinalizeStep env st sid).player_sockets = st.player_sockets := by
  unfold advanceFinalizeStep
  rcases st.current_entry with _ | e
  · exact ⟨rfl, rfl, rfl, rfl, rfl, rfl, rfl⟩
  · cases e with
    | quizIntro i qz qs => exact ⟨rfl, rfl, rfl, rfl, rfl, rfl, rfl⟩
    | question i j d g q =>
      dsimp only
      split
      · exact ⟨rfl, rfl, rfl, rfl, rfl, rfl, rfl⟩
      · exact runFinalize_frame env st sid q k hk

theorem resetAnswerTracking_frame (st : Ctrl) (sid : String) (e : Entry)
    (k : String) (hk : k ≠ sid) :
    alookup k (resetAnswerTracking st sid e).answers = alookup k st.answers ∧
    alookup k (resetAnswerTracking st sid e).answer_results = alookup k st.answer_results ∧
    alookup k (resetAnswerTracking st sid e).answer_values = alookup k st.answer_values ∧
    alookup k (resetAnswerTracking st sid e).closest_results =
      alookup k st.closest_results ∧
    (resetAnswerTracking st sid e).players = st.players ∧
    (resetAnswerTracking st sid e).scores_revealed = st.scores_revealed ∧
    (resetAnswerTracking st sid e).player_sockets = st.player_sockets := by
  unfold resetAnswerTracking
  split
  · exact ⟨alookup_aset_ne _ _ hk, alookup_aset_ne _ _ hk, alookup_aset_ne _ _ hk,
      alookup_aset_ne _ _ hk, rfl, rfl, rfl⟩
  · exact ⟨rfl, rfl, rfl, rfl, rfl, rfl, rfl⟩

theorem startTimer_maps (st : Ctrl) (e : Entry) :
    (startTimer st e).players = st.players ∧
    (startTimer st e).answers = st.answers ∧
    (startTimer st e).answer_results = st.answer_results ∧
    (startTimer st e).answer_values = st.answer_values ∧
    (startTimer st e).closest_results = st.closest_results ∧
    (startTimer st e).scores_revealed = st.scores_revealed ∧
    (startTimer st e).player_sockets = st.player_sockets ∧
    (startTimer st e).active_session_id = st.active_session_id := by
  cases e <;> exact ⟨rfl, rfl, rfl, rfl, rfl, rfl, rfl, rfl⟩

theorem resetAnswerTracking_active (st : Ctrl) (sid : String) (e : Entry) :
    (resetAnswerTracking st sid e).active_session_id = st.active_session_id := by
  unfold resetAnswerTracking
  split <;> rfl

theorem advance_frame (env : Env) (now : Int) (st : Ctrl) (sid : String)
    (k : String) (hk : k ≠ sid) :
    alookup k (advance env now st sid).players = alookup k st.players ∧
    alookup k (advance env now st sid).answers = alookup k st.answers ∧
    alookup k (advance env now st sid).answer_results = alookup k st.answer_results ∧
    alookup k (advance env now st sid).answer_values = alookup k st.answer_values ∧
    alookup k (advance env now st sid).closest_results = alookup k st.closest_results ∧
    (advance env now st sid).scores_revealed = st.scores_revealed ∧
    (advance env now st sid).player_sockets = st.player_sockets := by
  obtain ⟨hp, ha, hr, hv, hc, hs, hps⟩ := advanceFinalizeStep_frame env st sid k hk
  unfold advance
  dsimp only
  split
  · exact ⟨hp, by rw [ha], hr, by rw [hv], hc, hs, hps⟩
  · split
    · exact ⟨hp, by rw [ha], hr, by rw [hv], hc, hs, hps⟩
    · next entry heq =>
      obtain ⟨r1, r2, r3, r4, r5, r6, r7⟩ := resetAnswerTracking_frame _ sid entry k hk
      obtain ⟨t1, t2, t3, t4, t5, t6, t7, t8⟩ := startTimer_maps (resetAnswerTracking _ sid entry) entry
      refine ⟨?_, ?_, ?_, ?_, ?_, ?_, ?_⟩
      · rw [t1, r5]
        exact hp
      · rw [t2, r1]
        dsimp only
        rw [ha]
      · rw [t3, r2]
        exact hr
      · rw [t4, r3]
        dsimp only
        rw [hv]
      · rw [t5, r4]
        exact hc
      · rw [t6, r6]
        exact hs
      · rw [t7, r7]
        exact hps

theorem updSession_frame (sid : String) (f : DBSession → DBSession)
    (l : List (String × DBSession)) (k : String) (hk : k ≠ sid) :
    alookup k (updSession sid f l) = alookup k l := by
  unfold updSession
  split
  · exact alookup_aset_ne _ _ hk
  · rfl

theorem finalizeQuestionScores_db_sessions (env : Env) (st : Ctrl) (sid : String)
    (q : Question) :
    (finalizeQuestionScores env st sid q).db_sessions = st.db_sessions := by
  unfold finalizeQuestionScores
  split
  · rfl
  split
  · rfl
  dsimp only
  split
  · rfl
  · rfl

theorem advanceFinalizeStep_db_sessions (env : Env) (st : Ctrl) (sid : String) :
    (advanceFinalizeStep env st sid).db_sessions = st.db_sessions := by
  unfold advanceFinalizeStep
  rcases st.current_entry with _ | e
  · rfl
  · cases e with
    | quizIntro i qz qs => rfl
    | question i j d g q =>
      dsimp only
      split
      · rfl
      · unfold runFinalize
        exact finalizeQuestionScores_db_sessions env _ sid q

theorem startTimer_db_sessions (st : Ctrl) (e : Entry) :
    (startTimer st e).db_sessions = st.db_sessions := by
  cases e <;> rfl

theorem resetAnswerTracking_db_sessions (st : Ctrl) (sid : String) (e : Entry) :
    (resetAnswerTracking st sid e).db_sessions = st.db_sessions := by
  unfold resetAnswerTracking
  split <;> rfl

theorem advance_db_frame (env : Env) (now : Int) (st : Ctrl) (sid : String)
    (k : String) (hk : k ≠ sid) :
    alookup k (advance env now st sid).db_sessions = alookup k st.db_sessions := by
  have hstep := advanceFinalizeStep_db_sessions env st sid
  unfold advance
  dsimp only
  split
  · rw [updSession_frame _ _ _ k hk]
    rw [hstep]
  · split
    · dsimp only
      rw [hstep]
    · next entry heq =>
      rw [startTimer_db_sessions, resetAnswerTracking_db_sessions]
      dsimp only
      rw [updSession_frame _ _ _ k hk]
      rw [hstep]

theorem finalizeQuestionScores_active (env : Env) (st : Ctrl) (sid : String) (q : Question) :
    (finalizeQuestionScores env st sid q).active_session_id = st.active_session_id := by
  unfold finalizeQuestionScores
  split
  · rfl
  split
  · rfl
  dsimp only
  split
  · rfl
  · rfl

theorem advanceFinalizeStep_active (env : Env) (st : Ctrl) (sid : String) :
    (advanceFinalizeStep env st sid).active_session_id = st.active_session_id := by
  unfold advanceFinalizeStep
  rcases st.current_entry with _ | e
  · rfl
  · cases e with
    | quizIntro i qz qs => rfl
    | question i j d g q =>
      dsimp only
      split
      · rfl
      · unfold runFinalize
        exact finalizeQuestionScores_active env _ sid q

theorem advance_active_from_neg_one (env : Env) (now : Int) (st : Ctrl) (sid : String)
    (hidx : st.current_index = -1) (hne : st.timeline ≠ []) :
    (advance env now st sid).active_session_id = st.active_session_id := by
  have hact := advanceFinalizeStep_active env st sid
  obtain ⟨-, -, htl, -⟩ := advanceFinalizeStep_cursor env st sid
  obtain ⟨hi, -⟩ := advanceFinalizeStep_cursor env st sid
  unfold advance
  dsimp only
  split
  · next hcond =>
    exfalso
    rw [htl, hi, hidx] at hcond
    have hlen : 0 < st.timeline.length := List.length_pos.mpr hne
    omega
  · split
    · next heq =>
      exfalso
      rcases hl : st.timeline with _ | ⟨hd, tl2⟩
      · exact hne hl
      · rw [htl, hi, hidx, hl] at heq
        simp at heq
    · next entry heq =>
      rw [(startTimer_maps _ entry).2.2.2.2.2.2.2, resetAnswerTracking_active _ sid entry]
      dsimp only
      exact hact

/-- C8 (amended): starting session B while a different session A is
bound in the controller does not call `cancel`: the start succeeds, B
becomes the active session, and all per-session in-memory maps of A
(players, sockets, answers, answer and closest results, reveal flag)
are left exactly in place.  A's timer task is only replaced when B's
first stage timer starts, and A's Session row keeps its old status. -/
theorem start_leaves_other_session_state (env : Env) (now : Int) (st : Ctrl)
    (links : List (Option Quiz)) (a b : String) (sess : DBSession)
    (hab : a ≠ b)
    (hsess : alookup b st.db_sessions = some sess)
    (htl : buildTimeline links ≠ []) :
    ∃ st2, startSession env now st links b = .ok st2 ∧
      st2.active_session_id = some b ∧
      alookup a st2.players = alookup a st.players ∧
      alookup a st2.answers = alookup a st.answers ∧
      alookup a st2.answer_results = alookup a st.answer_results ∧
      alookup a st2.answer_values = alookup a st.answer_values ∧
      alookup a st2.closest_results = alookup a st.closest_results ∧
      alookup a st2.scores_revealed = alookup a st.scores_revealed ∧
      alookup a st2.player_sockets = alookup a st.player_sockets ∧
      alookup a st2.db_sessions = alookup a st.db_sessions := by
  unfold startSession
  rw [hsess]
  dsimp only
  rw [if_neg (fun h => htl (List.isEmpty_iff.mp h))]
  refine ⟨_, rfl, ?_, ?_, ?_, ?_, ?_, ?_, ?_, ?_, ?_⟩
  · exact (advance_active_from_neg_one env now _ b rfl htl).trans rfl
  · exact (advance_frame env now _ b a hab).1
  · exact (advance_frame env now _ b a hab).2.1
  · exact (advance_frame env now _ b a hab).2.2.1
  · exact (advance_frame env now _ b a hab).2.2.2.1
  · exact (advance_frame env now _ b a hab).2.2.2.2.1
  · rw [(advance_frame env now _ b a hab).2.2.2.2.2.1]
    exact alookup_aset_ne _ _ hab
  · rw [(advance_frame env now _ b a hab).2.2.2.2.2.2]
  · rw [advance_db_frame env now _ b a hab]
    exact alookup_aset_ne _ _ hab

/-- Live question state for session "A" with a registered player,
answers, and a pending timer; session "B" exists as a draft. -/
def c8st : Ctrl :=
  { idleCtrl with
    active_session_id := some "A"
    timeline := [entryQ]
    current_index := 0
    current_entry := some entryQ
    current_start := some 0
    current_end := some 30
    timer := some 30
    players := [("A", [("p1", pConn "p1")])]
    answers := [("A", ["p1"])]
    scores_revealed := [("A", false)]
    db_sessions := [("A", sessRow "A" .live), ("B", sessRow "B" .draft)]
    db_answers := [⟨"A", "q1", "p1", some "A", true⟩] }

/-- Result of starting "B" while "A" is live in `c8st`. -/
def c8res : Ctrl := exceptD c8st (startSession envNone 100 c8st [some quizDup] "B")

/-- C8 counterexample: starting session B while A is live succeeds and
binds B, but A's in-memory players and answered set are still present
afterwards, unlike what `cancel` would leave (it removes both); so A is
not aborted via cancel before B becomes active. -/
theorem start_does_not_cancel_previous :
    isOkE (startSession envNone 100 c8st [some quizDup] "B") = true ∧
    c8res.active_session_id = some "B" ∧
    alookup "A" c8res.players = some [("p1", pConn "p1")] ∧
    alookup "A" c8res.answers = some ["p1"] ∧
    alookup "A" (cancel c8st "A").players = none ∧
    alookup "A" (cancel c8st "A").answers = none ∧
    (alookup "A" c8res.db_sessions).map DBSession.status = some SessionStatus.live := by
  refine ⟨by decide, by decide, by decide, by decide, by decide, by decide, by decide⟩

/-- Witness for C8: the amended theorem applied to the concrete state
`c8st`, starting "B" over a playlist with one quiz. -/
theorem start_leaves_other_session_state_witness :
    ("A" : String) ≠ "B" ∧
    alookup "B" c8st.db_sessions = some (sessRow "B" .draft) ∧
    ∃ st2, startSession envNone 100 c8st [some quizDup] "B" = .ok st2 ∧
      st2.active_session_id = some "B" ∧
      alookup "A" st2.players = alookup "A" c8st.players ∧
      alookup "A" st2.answers = alookup "A" c8st.answers ∧
      alookup "A" st2.answer_results = alookup "A" c8st.answer_results ∧
      alookup "A" st2.answer_values = alookup "A" c8st.answer_values ∧
      alookup "A" st2.closest_results = alookup "A" c8st.closest_results ∧
      alookup "A" st2.scores_revealed = alookup "A" c8st.scores_revealed ∧
      alookup "A" st2.player_sockets = alookup "A" c8st.player_sockets ∧
      alookup "A" st2.db_sessions = alookup "A" c8st.db_sessions :=
  ⟨by decide, rfl,
    start_leaves_other_session_state envNone 100 c8st [some quizDup] "A" "B"
      (sessRow "B" .draft) (by decide) rfl (by decide)⟩

end QuizRuntime
